import Mathlib

/-! carbonapi: the `aggregate` function family

A shallow embedding of `expr/functions/aggregate/function.go` (registration,
dispatch and self-description of the cross-series aggregation functions) and
theorems about it.

Conventions of the embedding.

* Go `float64`/`float32` values are only copied by this package, never
  computed with; they are carried as rationals, a missing sample (the NaN
  sentinel of the series model) as `none`.
* A Go `error` is identified with its message.
* A Go slice that is returned is an `Option (List _)`: `none` is the `nil`
  slice, `some []` an empty allocated one. The resolved argument list, of
  which `Do` reads only the length and the first element, is a plain list.
* A Go `map[string]string` is an association list read and written through
  `mapGet`/`mapSet`.
* `*types.MetricData` pointers are followed: a series is the value pointed to.
* The expression node is a pointer in Go and `Do` rewrites it in place; the
  embedding returns the node as it is after the call.
-/

namespace Carbonapi

/-! ## Go runtime pieces -/

/-- Carrier of Go floating-point values (`float64`, and `float32` widened). -/
abbrev Float64 := Rat

/-- A Go `error`, identified with the text of its message. -/
structure Error where
  msg : String
  deriving DecidableEq, Repr

/-- A Go slice: `none` is `nil`, `some xs` an allocated slice with elements `xs`. -/
abbrev Slice (α : Type) := Option (List α)

/-- A Go `map[string]string`. -/
abbrev StringMap := List (String × String)

/-- Map read `m[k]`, with the presence flag as an option. -/
def mapGet : StringMap → String → Option String
  | [], _ => none
  | (k', v') :: rest, k => if k' = k then some v' else mapGet rest k

/-- Map write `m[k] = v`. -/
def mapSet : StringMap → String → String → StringMap
  | [], k, v => [(k, v)]
  | (k', v') :: rest, k, v => if k' = k then (k, v) :: rest else (k', v') :: mapSet rest k v

namespace strings

/-- Split `s` around the first occurrence of the non-empty text `old`. -/
def cutFirst (old : List Char) : List Char → Option (List Char × List Char)
  | [] => none
  | c :: cs =>
    if old.isPrefixOf (c :: cs) then some ([], (c :: cs).drop old.length)
    else (cutFirst old cs).map (fun p => (c :: p.1, p.2))

/-- Go `strings.Replace` with an empty `old`: `new` is inserted at the start
and after each character, at most `n` times. -/
def insertEach (new : List Char) : Nat → List Char → List Char
  | 0, s => s
  | _ + 1, [] => new
  | n + 1, c :: cs => new ++ c :: insertEach new n cs

/-- Go `strings.Replace` with a non-empty `old`: the first `n` non-overlapping
occurrences, left to right. -/
def replaceOccurrences (old new : List Char) : Nat → List Char → List Char
  | 0, s => s
  | n + 1, s =>
    match cutFirst old s with
    | none => s
    | some (before, after) => before ++ new ++ replaceOccurrences old new n after

/-- Go `strings.Replace(s, old, new, n)` for a count `n ≥ 0`. -/
def Replace (s old new : String) (n : Nat) : String :=
  if old.data = [] then ⟨insertEach new.data n s.data⟩
  else ⟨replaceOccurrences old.data new.data n s.data⟩

/-- Go `strings.TrimSuffix(s, suffix)`: `s` without the trailing `suffix` when it
ends in it, `s` itself otherwise. The source does not call it; it is what the
specification's "stripping a trailing `Series`" denotes, kept here to be
compared with the `strings.Replace` call of line 57. -/
def TrimSuffix (s suffix : String) : String :=
  if suffix.data.isSuffixOf s.data then ⟨s.data.take (s.data.length - suffix.data.length)⟩
  else s

end strings

/-! ## Series and expression nodes -/

/-- Modelled from the spec: `types.MetricData`, the series model of section 3
(the package `types` is not among the sources). `Values` uses `none` for a
missing sample; `XFilesFactor` is the completeness threshold carried by the
series; `Tags` is the tag map, allocated. -/
structure MetricData where
  Name : String
  Values : List (Option Float64)
  StartTime : Int
  StopTime : Int
  StepTime : Int
  XFilesFactor : Float64
  Tags : StringMap
  deriving DecidableEq, Repr

/-- Kinds of expression node told apart by the typed argument getters. -/
inductive ExprType where
  | EtName
  | EtFunc
  | EtConst
  | EtString
  deriving DecidableEq, Repr

/-- Modelled from the spec: the parser's expression node behind the
`parser.Expr` interface (the package `parser` is not among the sources):
a displayed target, a kind, the numeric or string payload of a literal, the
positional arguments and the raw argument text. -/
inductive Expr where
  | mk (target : String) (etype : ExprType) (val : Float64) (valStr : String)
      (args : List Expr) (argString : String)

namespace Expr

/-- The node's `Target()`. -/
def Target : Expr → String
  | mk t _ _ _ _ _ => t

/-- The node's kind. -/
def etype : Expr → ExprType
  | mk _ k _ _ _ _ => k

/-- Numeric payload of a constant. -/
def val : Expr → Float64
  | mk _ _ v _ _ _ => v

/-- String payload of a string literal. -/
def valStr : Expr → String
  | mk _ _ _ s _ _ => s

/-- Positional arguments. -/
def args : Expr → List Expr
  | mk _ _ _ _ as _ => as

/-- The node's `RawArgs()`. -/
def RawArgs : Expr → String
  | mk _ _ _ _ _ r => r

/-- The mutator `SetTarget`. -/
def SetTarget : Expr → String → Expr
  | mk _ k v s as r, t => mk t k v s as r

/-- The mutator `SetRawArgs`. -/
def SetRawArgs : Expr → String → Expr
  | mk t k v s as _, r => mk t k v s as r

/-- Positional accessor `Arg(i)`; `none` stands for Go's out-of-range panic. -/
def Arg (e : Expr) (i : Nat) : Option Expr :=
  e.args.get? i

/-- Typed getter `GetStringArg(n)`: the argument must exist and be a string literal. -/
def GetStringArg (e : Expr) (n : Nat) : Except Error String :=
  match e.args.get? n with
  | none => .error ⟨"missing argument"⟩
  | some a => if a.etype = .EtString then .ok a.valStr else .error ⟨"bad type"⟩

/-- Typed getter `GetFloatArgDefault(n, d)`: the default when position `n` is
absent, otherwise the argument must be a numeric constant. -/
def GetFloatArgDefault (e : Expr) (n : Nat) (d : Float64) : Except Error Float64 :=
  match e.args.get? n with
  | none => .ok d
  | some a => if a.etype = .EtConst then .ok a.val else .error ⟨"bad type"⟩

end Expr

/-! ## Collaborators of `aggregate.Do` -/

/-- A point-wise reducer, `func([]float64) float64`. -/
abbrev AggFunc := List Float64 → Float64

/-- The collaborators `Do` calls and the package-level values it reads, none of
which is among the sources; they are parameters of the embedding. The request
context, evaluator handle, time range and fetched-series map are only handed on
to the two resolution helpers and are folded into them. -/
structure Env where
  /-- Resolves every argument of the node and drops non-existing series:
  `helper.GetSeriesArgsAndRemoveNonExisting`. -/
  GetSeriesArgsAndRemoveNonExisting : Expr → Except Error (List MetricData)
  /-- Resolves one argument node: `helper.GetSeriesArg`. -/
  GetSeriesArg : Expr → Except Error (List MetricData)
  /-- The table `consolidations.ConsolidationToFunc`. -/
  ConsolidationToFunc : String → Option AggFunc
  /-- The aggregation engine `helper.AggregateSeries`. -/
  AggregateSeries : Expr → List MetricData → AggFunc → Float64 → Bool →
    Except Error (Slice MetricData)
  /-- The setting `fconfig.Config.ExtractTagsFromArgs`. -/
  ExtractTagsFromArgs : Bool

/-! ## `aggregate.Do` -/

/-- What `Do` returns, together with the expression node as the call leaves it. -/
structure DoResult where
  results : Slice MetricData
  err : Option Error
  node : Expr

/-- The call `Do` makes to `helper.AggregateSeries` (line 87), with the
statistic name it will tag the outputs with. -/
structure EngineCall where
  e : Expr
  args : List MetricData
  aggFunc : AggFunc
  xFilesFactor : Float64
  callback : String

/-- Where `Do` stands at line 87. -/
inductive Prepared where
  | returned (r : DoResult)
  | call (c : EngineCall)
  | panicked

/-- Lines 76 to 85 of `Do`: table lookup, then the rewrite of the node. -/
def lookupAndRewrite (env : Env) (e : Expr) (args : List MetricData) (callback : String)
    (isAggregateFunc : Bool) (xFilesFactor : Float64) : Prepared :=
  match env.ConsolidationToFunc callback with
  | none => .returned ⟨none, some ⟨"unsupported consolidation function " ++ callback⟩, e⟩
  | some aggFunc =>
    let target := callback ++ "Series"
    let e1 := e.SetTarget target
    if isAggregateFunc then
      match e1.Arg 0 with
      | none => .panicked
      | some a0 => .call ⟨e1.SetRawArgs a0.Target, args, aggFunc, xFilesFactor, callback⟩
    else
      .call ⟨e1, args, aggFunc, xFilesFactor, callback⟩

/-- Lines 41 to 85 of `Do`: everything before the engine is called. -/
def prepare (env : Env) (e : Expr) : Prepared :=
  match e.GetStringArg 1 with
  | .error err =>
    if e.Target = "aggregate" then
      .returned ⟨none, some err, e⟩
    else
      match env.GetSeriesArgsAndRemoveNonExisting e with
      | .error err => .returned ⟨none, some err, e⟩
      | .ok args =>
        if args.length = 0 then
          .returned ⟨some [], none, e⟩
        else
          lookupAndRewrite env e args (strings.Replace e.Target "Series" "" 1) false (-1)
  | .ok callback =>
    match e.Arg 0 with
    | none => .panicked
    | some a0 =>
      match env.GetSeriesArg a0 with
      | .error err => .returned ⟨none, some err, e⟩
      | .ok [] => .returned ⟨some [], none, e⟩
      | .ok (first :: rest) =>
        match e.GetFloatArgDefault 2 first.XFilesFactor with
        | .error err => .returned ⟨none, some err, e⟩
        | .ok xFilesFactor =>
          lookupAndRewrite env e (first :: rest) callback true xFilesFactor

/-- Lines 92 to 94 of `Do`: `result.Tags["aggregatedBy"] = callback`. -/
def tagResult (callback : String) (result : MetricData) : MetricData :=
  { result with Tags := mapSet result.Tags "aggregatedBy" callback }

/-- The method `(*aggregate).Do`; `none` stands for a Go runtime panic. -/
def Do (env : Env) (e : Expr) : Option DoResult :=
  match prepare env e with
  | .panicked => none
  | .returned r => some r
  | .call c =>
    match env.AggregateSeries c.e c.args c.aggFunc c.xFilesFactor env.ExtractTagsFromArgs with
    | .error err => some ⟨none, some err, c.e⟩
    | .ok results => some ⟨results.map (List.map (tagResult c.callback)), none, c.e⟩

/-- Lines 88 to 96 of `Do` on their own: what `Do` returns for the outcome
`out` of the engine call of line 87, made on `node` with the statistic name
`callback`: the engine's error with the nil slice, or the engine's slice with
every series tagged. -/
def returnFromEngine (callback : String) (node : Expr) (out : Except Error (Slice MetricData)) :
    DoResult :=
  match out with
  | .error err => ⟨none, some err, node⟩
  | .ok results => ⟨results.map (List.map (tagResult callback)), none, node⟩

/-! ## Call shapes

The branch conditions of `Do`, named so that statements can refer to them. -/

/-- The alias branch (lines 46 to 60) is taken and its resolution helper
returns `args`: argument 1 does not read as a string, the target is not
`aggregate`, and `helper.GetSeriesArgsAndRemoveNonExisting` succeeds. -/
def AliasForm (env : Env) (e : Expr) (args : List MetricData) : Prop :=
  (∃ err, e.GetStringArg 1 = .error err) ∧ e.Target ≠ "aggregate" ∧
    env.GetSeriesArgsAndRemoveNonExisting e = .ok args

/-- The canonical branch (lines 61 to 74) is taken with statistic name
`callback` and `helper.GetSeriesArg` on argument 0 returns `args`. -/
def CanonicalForm (env : Env) (e : Expr) (callback : String) (args : List MetricData) : Prop :=
  e.GetStringArg 1 = .ok callback ∧ ∃ a0, e.Arg 0 = some a0 ∧ env.GetSeriesArg a0 = .ok args

/-- Line 70 succeeds with threshold `x`: the list is non-empty and
`GetFloatArgDefault(2, args[0].XFilesFactor)` returns `x`. -/
def ThresholdReads (e : Expr) (args : List MetricData) (x : Float64) : Prop :=
  ∃ first rest, args = first :: rest ∧ e.GetFloatArgDefault 2 first.XFilesFactor = .ok x

/-- The text `Series` occurs somewhere in `s`. -/
def ContainsSeries (s : String) : Prop :=
  "Series".data <:+: s.data

instance (s : String) : Decidable (ContainsSeries s) :=
  inferInstanceAs (Decidable ("Series".data <:+: s.data))

/-- Modelled from the spec: the statistic names of the consolidation table,
section 4.1 (the package `consolidations` is not among the sources). -/
def ConsolidationNames : List String :=
  ["sum", "average", "min", "max", "multiply", "count", "diff", "range", "stddev", "median",
    "last"]

/-! ## Registration: `New` -/

/-- Address of a heap object. -/
abbrev Ptr := Nat

/-- An entry of the function registry, `interfaces.FunctionMetadata`: a public
name and the implementation it dispatches to. -/
structure FunctionMetadata where
  Name : String
  F : Ptr
  deriving DecidableEq, Repr

set_option linter.unusedVariables false in
/-- The constructor `New`. The list `consolidations.AvailableSummarizers` is not
among the sources and is a parameter; `f` is the address of the `aggregate`
value allocated at line 23. -/
def New (AvailableSummarizers : List String) (f : Ptr) (configFile : String) :
    List FunctionMetadata :=
  let res : List FunctionMetadata := []
  let res := ["aggregate"].foldl (fun res n => res ++ [⟨n, f⟩]) res
  AvailableSummarizers.foldl (fun res n => res ++ [⟨n, f⟩, ⟨n ++ "Series", f⟩]) res

/-! ## Self-description: `Description` -/

/-- Parameter kinds used by the descriptors, from `types`. -/
inductive ParamType where
  | SeriesList
  | AggFunc
  | Float
  deriving DecidableEq, Repr

/-- One parameter of a descriptor, `types.FunctionParam`. -/
structure FunctionParam where
  Name : String
  Typ : ParamType
  Required : Bool
  Multiple : Bool
  Options : List String
  deriving DecidableEq, Repr

/-- A descriptor, `types.FunctionDescription`. -/
structure FunctionDescription where
  Name : String
  Function : String
  Description : String
  Module : String
  Group : String
  Params : List FunctionParam
  SeriesChange : Bool
  NameChange : Bool
  TagsChange : Bool
  ValuesChange : Bool
  deriving DecidableEq, Repr

/-- The method `Description`: the map literal of lines 103 to 438, as its list
of key and value pairs in source order. `options` stands for
`types.StringsToSuggestionList(consolidations.AvailableConsolidationFuncs())`,
which is not among the sources. -/
def Description (options : List String) : List (String × FunctionDescription) :=
  [
    ("aggregate",
      { Name := "aggregate"
        Function := "aggregate(seriesList, func, xFilesFactor=None)"
        Description := "Aggregate series using the specified function.\n\nExample:\n\n.. code-block:: none\n\n  &target=aggregate(host.cpu-[0-7\x7d.cpu-\x7buser,system\x7d.value, \"sum\")\n\nThis would be the equivalent of\n\n.. code-block:: none\n\n  &target=sumSeries(host.cpu-[0-7\x7d.cpu-\x7buser,system\x7d.value)\n\nThis function can be used with aggregation functions ``average``, ``median``, ``sum``, ``min``,\n``max``, ``diff``, ``stddev``, ``count``, ``range``, ``multiply`` & ``last``."
        Module := "graphite.render.functions"
        Group := "Combine"
        Params := [
          { Name := "seriesList", Typ := .SeriesList, Required := true, Multiple := false, Options := [] },
          { Name := "func", Typ := .AggFunc, Required := true, Multiple := false, Options := options },
          { Name := "xFilesFactor", Typ := .Float, Required := false, Multiple := false, Options := [] }]
        SeriesChange := true
        NameChange := true
        TagsChange := true
        ValuesChange := true }),
    ("averageSeries",
      { Name := "averageSeries"
        Function := "averageSeries(*seriesLists)"
        Description := "Short Alias: avg()\n\nTakes one metric or a wildcard seriesList.\nDraws the average value of all metrics passed at each time.\n\nExample:\n\n.. code-block:: none\n\n  &target=averageSeries(company.server.*.threads.busy)\n\nThis is an alias for :py:func:`aggregate <aggregate>` with aggregation ``average``."
        Module := "graphite.render.functions"
        Group := "Combine"
        Params := [
          { Name := "seriesLists", Typ := .SeriesList, Required := true, Multiple := true, Options := [] }]
        SeriesChange := true
        NameChange := true
        TagsChange := true
        ValuesChange := true }),
    ("avg",
      { Name := "avg"
        Function := "avg(*seriesLists)"
        Description := "Short Alias: avg()\n\nTakes one metric or a wildcard seriesList.\nDraws the average value of all metrics passed at each time.\n\nExample:\n\n.. code-block:: none\n\n  &target=averageSeries(company.server.*.threads.busy)\n\nThis is an alias for :py:func:`aggregate <aggregate>` with aggregation ``average``."
        Module := "graphite.render.functions"
        Group := "Combine"
        Params := [
          { Name := "seriesLists", Typ := .SeriesList, Required := true, Multiple := true, Options := [] }]
        SeriesChange := true
        NameChange := true
        TagsChange := true
        ValuesChange := true }),
    ("max",
      { Name := "maxSeries"
        Function := "maxSeries(*seriesLists)"
        Description := "Takes one metric or a wildcard seriesList.\nFor each datapoint from each metric passed in, pick the maximum value and graph it.\n\nExample:\n\n.. code-block:: none\n\n  &target=maxSeries(Server*.connections.total)\n\nThis is an alias for :py:func:`aggregate <aggregate>` with aggregation ``max``."
        Module := "graphite.render.functions"
        Group := "Combine"
        Params := [
          { Name := "seriesLists", Typ := .SeriesList, Required := true, Multiple := true, Options := [] }]
        SeriesChange := true
        NameChange := true
        TagsChange := true
        ValuesChange := true }),
    ("maxSeries",
      { Name := "maxSeries"
        Function := "maxSeries(*seriesLists)"
        Description := "Takes one metric or a wildcard seriesList.\nFor each datapoint from each metric passed in, pick the maximum value and graph it.\n\nExample:\n\n.. code-block:: none\n\n  &target=maxSeries(Server*.connections.total)\n\nThis is an alias for :py:func:`aggregate <aggregate>` with aggregation ``max``."
        Module := "graphite.render.functions"
        Group := "Combine"
        Params := [
          { Name := "seriesLists", Typ := .SeriesList, Required := true, Multiple := true, Options := [] }]
        SeriesChange := true
        NameChange := true
        TagsChange := true
        ValuesChange := true }),
    ("min",
      { Name := "minSeries"
        Function := "minSeries(*seriesLists)"
        Description := "Takes one metric or a wildcard seriesList.\nFor each datapoint from each metric passed in, pick the minimum value and graph it.\n\nExample:\n\n.. code-block:: none\n\n  &target=minSeries(Server*.connections.total)\n\nThis is an alias for :py:func:`aggregate <aggregate>` with aggregation ``min``."
        Module := "graphite.render.functions"
        Group := "Combine"
        Params := [
          { Name := "seriesLists", Typ := .SeriesList, Required := true, Multiple := true, Options := [] }]
        SeriesChange := true
        NameChange := true
        TagsChange := true
        ValuesChange := true }),
    ("minSeries",
      { Name := "minSeries"
        Function := "minSeries(*seriesLists)"
        Description := "Takes one metric or a wildcard seriesList.\nFor each datapoint from each metric passed in, pick the minimum value and graph it.\n\nExample:\n\n.. code-block:: none\n\n  &target=minSeries(Server*.connections.total)\n\nThis is an alias for :py:func:`aggregate <aggregate>` with aggregation ``min``."
        Module := "graphite.render.functions"
        Group := "Combine"
        Params := [
          { Name := "seriesLists", Typ := .SeriesList, Required := true, Multiple := true, Options := [] }]
        SeriesChange := true
        NameChange := true
        TagsChange := true
        ValuesChange := true }),
    ("sum",
      { Name := "sum"
        Function := "sum(*seriesLists)"
        Description := "Short form: sum()\n\nThis will add metrics together and return the sum at each datapoint. (See\nintegral for a sum over time)\n\nExample:\n\n.. code-block:: none\n\n  &target=sum(company.server.application*.requestsHandled)\n\nThis would show the sum of all requests handled per minute (provided\nrequestsHandled are collected once a minute).   If metrics with different\nretention rates are combined, the coarsest metric is graphed, and the sum\nof the other metrics is averaged for the metrics with finer retention rates.\n\nThis is an alias for :py:func:`aggregate <aggregate>` with aggregation ``sum``."
        Module := "graphite.render.functions"
        Group := "Combine"
        Params := [
          { Name := "seriesLists", Typ := .SeriesList, Required := true, Multiple := true, Options := [] }]
        SeriesChange := true
        NameChange := true
        TagsChange := true
        ValuesChange := true }),
    ("sumSeries",
      { Name := "sumSeries"
        Function := "sumSeries(*seriesLists)"
        Description := "Short form: sum()\n\nThis will add metrics together and return the sum at each datapoint. (See\nintegral for a sum over time)\n\nExample:\n\n.. code-block:: none\n\n  &target=sum(company.server.application*.requestsHandled)\n\nThis would show the sum of all requests handled per minute (provided\nrequestsHandled are collected once a minute).   If metrics with different\nretention rates are combined, the coarsest metric is graphed, and the sum\nof the other metrics is averaged for the metrics with finer retention rates.\n\nThis is an alias for :py:func:`aggregate <aggregate>` with aggregation ``sum``."
        Module := "graphite.render.functions"
        Group := "Combine"
        Params := [
          { Name := "seriesLists", Typ := .SeriesList, Required := true, Multiple := true, Options := [] }]
        SeriesChange := true
        NameChange := true
        TagsChange := true
        ValuesChange := true }),
    ("stddev",
      { Name := "stddev"
        Function := "stddev(*seriesLists)"
        Description := "Short form: stddev()\n\nTakes one metric or a wildcard seriesList.\nDraws the standard deviation of all metrics passed at each time.\n\nExample:\n\n.. code-block:: none\n\n  &target=stddevSeries(company.server.*.threads.busy)\n\nThis is an alias for :py:func:`aggregate <aggregate>` with aggregation ``stddev``."
        Module := "graphite.render.functions"
        Group := "Combine"
        Params := [
          { Name := "seriesLists", Typ := .SeriesList, Required := true, Multiple := true, Options := [] }]
        SeriesChange := true
        NameChange := true
        TagsChange := true
        ValuesChange := true }),
    ("stddevSeries",
      { Name := "stddevSeries"
        Function := "stddevSeries(*seriesLists)"
        Description := "Short form: stddev()\n\nTakes one metric or a wildcard seriesList.\nDraws the standard deviation of all metrics passed at each time.\n\nExample:\n\n.. code-block:: none\n\n  &target=stddevSeries(company.server.*.threads.busy)\n\nThis is an alias for :py:func:`aggregate <aggregate>` with aggregation ``stddev``."
        Module := "graphite.render.functions"
        Group := "Combine"
        Params := [
          { Name := "seriesLists", Typ := .SeriesList, Required := true, Multiple := true, Options := [] }]
        SeriesChange := true
        NameChange := true
        TagsChange := true
        ValuesChange := true }),
    ("count",
      { Name := "count"
        Function := "count(*seriesLists)"
        Description := "Draws a horizontal line representing the number of nodes found in the seriesList.\n\n.. code-block:: none\n\n  &target=count(carbon.agents.*.*)"
        Module := "graphite.render.functions"
        Group := "Combine"
        Params := [
          { Name := "seriesLists", Typ := .SeriesList, Required := true, Multiple := true, Options := [] }]
        SeriesChange := true
        NameChange := true
        TagsChange := true
        ValuesChange := true }),
    ("countSeries",
      { Name := "countSeries"
        Function := "countSeries(*seriesLists)"
        Description := "Draws a horizontal line representing the number of nodes found in the seriesList.\n\n.. code-block:: none\n\n  &target=countSeries(carbon.agents.*.*)"
        Module := "graphite.render.functions"
        Group := "Combine"
        Params := [
          { Name := "seriesLists", Typ := .SeriesList, Required := true, Multiple := true, Options := [] }]
        SeriesChange := true
        NameChange := true
        TagsChange := true
        ValuesChange := true }),
    ("diff",
      { Name := "diff"
        Function := "diff(*seriesLists)"
        Description := "Subtracts series 2 through n from series 1.\n\nExample:\n\n.. code-block:: none\n\n  &target=diff(service.connections.total,service.connections.failed)\n\nTo diff a series and a constant, one should use offset instead of (or in\naddition to) diffSeries\n\nExample:\n\n.. code-block:: none\n\n  &target=offset(service.connections.total,-5)\n\n  &target=offset(diffSeries(service.connections.total,service.connections.failed),-4)\n\nThis is an alias for :py:func:`aggregate <aggregate>` with aggregation ``diff``."
        Module := "graphite.render.functions"
        Group := "Combine"
        Params := [
          { Name := "seriesLists", Typ := .SeriesList, Required := true, Multiple := true, Options := [] }]
        SeriesChange := true
        NameChange := true
        TagsChange := true
        ValuesChange := true }),
    ("diffSeries",
      { Name := "diffSeries"
        Function := "diffSeries(*seriesLists)"
        Description := "Subtracts series 2 through n from series 1.\n\nExample:\n\n.. code-block:: none\n\n  &target=diffSeries(service.connections.total,service.connections.failed)\n\nTo diff a series and a constant, one should use offset instead of (or in\naddition to) diffSeries\n\nExample:\n\n.. code-block:: none\n\n  &target=offset(service.connections.total,-5)\n\n  &target=offset(diffSeries(service.connections.total,service.connections.failed),-4)\n\nThis is an alias for :py:func:`aggregate <aggregate>` with aggregation ``diff``."
        Module := "graphite.render.functions"
        Group := "Combine"
        Params := [
          { Name := "seriesLists", Typ := .SeriesList, Required := true, Multiple := true, Options := [] }]
        SeriesChange := true
        NameChange := true
        TagsChange := true
        ValuesChange := true }),
    ("multiply",
      { Name := "multiply"
        Function := "multiply(*seriesLists)"
        Description := "Takes two or more series and multiplies their points. A constant may not be\nused. To multiply by a constant, use the scale() function.\n\nExample:\n\n.. code-block:: none\n\n  &target=multiplySeries(Series.dividends,Series.divisors)\n\nThis is an alias for :py:func:`aggregate <aggregate>` with aggregation ``multiply``."
        Module := "graphite.render.functions"
        Group := "Combine"
        Params := [
          { Name := "seriesLists", Typ := .SeriesList, Required := true, Multiple := true, Options := [] }]
        SeriesChange := true
        NameChange := true
        TagsChange := true
        ValuesChange := true }),
    ("multiplySeries",
      { Name := "multiplySeries"
        Function := "multiplySeries(*seriesLists)"
        Description := "Takes two or more series and multiplies their points. A constant may not be\nused. To multiply by a constant, use the scale() function.\n\nExample:\n\n.. code-block:: none\n\n  &target=multiplySeries(Series.dividends,Series.divisors)\n\nThis is an alias for :py:func:`aggregate <aggregate>` with aggregation ``multiply``."
        Module := "graphite.render.functions"
        Group := "Combine"
        Params := [
          { Name := "seriesLists", Typ := .SeriesList, Required := true, Multiple := true, Options := [] }]
        SeriesChange := true
        NameChange := true
        TagsChange := true
        ValuesChange := true })]

/-- Map read on the descriptor map. -/
def descriptionGet (m : List (String × FunctionDescription)) (k : String) :
    Option FunctionDescription :=
  (m.find? (fun kv => kv.1 = k)).map (fun kv => kv.2)

/-! ## A sample environment

Concrete collaborators on which the statements below are exercised. -/

/-- A metric-name node. -/
def nameNode (n : String) : Expr :=
  .mk n .EtName 0 "" [] ""

/-- A string-literal node. -/
def stringNode (s : String) : Expr :=
  .mk "" .EtString 0 s [] ""

/-- A numeric-constant node. -/
def constNode (x : Float64) : Expr :=
  .mk "" .EtConst x "" [] ""

/-- A function-call node with its raw argument text. -/
def funcNode (target : String) (args : List Expr) (raw : String) : Expr :=
  .mk target .EtFunc 0 "" args raw

/-- The series `a`: threshold 1, second sample missing. -/
def seriesA : MetricData :=
  ⟨"a", [some 1, none], 0, 2, 1, 1, [("name", "a"), ("dc", "x")]⟩

/-- The series `b`: threshold 0, no sample missing. -/
def seriesB : MetricData :=
  ⟨"b", [some 3, some 5], 0, 2, 1, 0, [("name", "b"), ("dc", "x")]⟩

/-- Fetched series by metric name; the pattern `*` matches both. -/
def sampleStore : String → List MetricData
  | "a" => [seriesA]
  | "b" => [seriesB]
  | "*" => [seriesA, seriesB]
  | _ => []

/-- Series of one argument node: a metric name is looked up, a call such as
`group(...)` contributes the series of its arguments, a literal none. -/
def sampleResolve (a : Expr) : List MetricData :=
  if a.etype = .EtName then sampleStore a.Target
  else a.args.flatMap (fun x => sampleStore x.Target)

/-- The mean of the present samples. -/
def sampleMean : AggFunc :=
  fun xs => xs.sum / xs.length

/-- A consolidation table with the spec's reducers that stay within the
rationals, and `avg` as the short name of `average`. -/
def sampleTable : String → Option AggFunc
  | "sum" => some List.sum
  | "average" => some sampleMean
  | "avg" => some sampleMean
  | "multiply" => some List.prod
  | "count" => some (fun xs => xs.length)
  | "diff" => some (fun xs => xs.headD 0 - xs.tail.sum)
  | "max" => some (fun xs => xs.foldl max (xs.headD 0))
  | "min" => some (fun xs => xs.foldl min (xs.headD 0))
  | _ => none

/-- Modelled from the spec: the aggregation engine of section 4.4
(`helper.AggregateSeries` is not among the sources). One output series named
after the node; at each index the reducer over the present samples, or a
missing sample when none is present or when a non-negative threshold is not
met; the tags shared by all inputs. -/
def sampleEngine (e : Expr) (args : List MetricData) (f : AggFunc) (xFilesFactor : Float64)
    (_extractTagsFromArgs : Bool) : Except Error (Slice MetricData) :=
  match args with
  | [] => .ok (some [])
  | first :: _ =>
    let values := (List.range first.Values.length).map fun i =>
      let present := args.filterMap (fun a => (a.Values.get? i).join)
      if 0 ≤ xFilesFactor ∧ (present.length : Float64) < xFilesFactor * args.length then none
      else if present = [] then none
      else some (f present)
    .ok (some [{ first with
      Name := e.Target ++ "(" ++ e.RawArgs ++ ")"
      Values := values
      Tags := first.Tags.filter (fun kv => args.all (fun a => mapGet a.Tags kv.1 = some kv.2)) }])

/-- The sample collaborators together. -/
def sampleEnv : Env where
  GetSeriesArgsAndRemoveNonExisting := fun e => .ok (e.args.flatMap sampleResolve)
  GetSeriesArg := fun a => .ok (sampleResolve a)
  ConsolidationToFunc := sampleTable
  AggregateSeries := sampleEngine
  ExtractTagsFromArgs := false

/-- The request `aggregate(nothing, "bogus")`: no series, unknown statistic. -/
def bogusOverNothing : Expr :=
  funcNode "aggregate" [nameNode "nothing", stringNode "bogus"] "nothing,\"bogus\""

/-- The request `aggregate(a, "bogus", "x")`: unknown statistic, unreadable threshold. -/
def bogusBadThreshold : Expr :=
  funcNode "aggregate" [nameNode "a", stringNode "bogus", stringNode "x"] "a,\"bogus\",\"x\""

/-- The request `aggregate(a, "bogus")`. -/
def bogusOverA : Expr :=
  funcNode "aggregate" [nameNode "a", stringNode "bogus"] "a,\"bogus\""

/-- The request `bogusSeries(a)`. -/
def bogusSeriesOverA : Expr :=
  funcNode "bogusSeries" [nameNode "a"] "a"

/-- The request `aggregate(a)`, without a statistic name. -/
def aggregateNoStat : Expr :=
  funcNode "aggregate" [nameNode "a"] "a"

/-- The request `sumSeries(nothing)`. -/
def sumSeriesOverNothing : Expr :=
  funcNode "sumSeries" [nameNode "nothing"] "nothing"

/-- The request `aggregate(nothing, "sum")`. -/
def aggregateSumOverNothing : Expr :=
  funcNode "aggregate" [nameNode "nothing", stringNode "sum"] "nothing,\"sum\""

/-- The request `sumSeries(a,b)`. -/
def sumSeriesOverAB : Expr :=
  funcNode "sumSeries" [nameNode "a", nameNode "b"] "a,b"

/-- The request `aggregate(*, "sum")`. -/
def aggregateSumOverStar : Expr :=
  funcNode "aggregate" [nameNode "*", stringNode "sum"] "*,\"sum\""

/-- The request `sum(a,b)`. -/
def sumOverAB : Expr :=
  funcNode "sum" [nameNode "a", nameNode "b"] "a,b"

/-- The request `aggregate(*, "sum", 0.5)`. -/
def aggregateSumHalfOverStar : Expr :=
  funcNode "aggregate" [nameNode "*", stringNode "sum", constNode (1 / 2)] "*,\"sum\",0.5"

/-- The request `avg(a,b)`. -/
def avgOverAB : Expr :=
  funcNode "avg" [nameNode "a", nameNode "b"] "a,b"

/-- The request `averageSeries(a,b)`. -/
def averageSeriesOverAB : Expr :=
  funcNode "averageSeries" [nameNode "a", nameNode "b"] "a,b"

/-- The request `aggregate(group(a,b), "average")`. -/
def aggregateAverageOverGroup : Expr :=
  funcNode "aggregate"
    [funcNode "group" [nameNode "a", nameNode "b"] "a,b", stringNode "average"]
    "group(a,b),\"average\""

/-- A node invoked under the name `Seriessum`, over `a` and `b`. -/
def seriessumOverAB : Expr :=
  funcNode "Seriessum" [nameNode "a", nameNode "b"] "a,b"

/-- The request `aggregate(group(a,b), "sum")`. -/
def aggregateSumOverGroup : Expr :=
  funcNode "aggregate"
    [funcNode "group" [nameNode "a", nameNode "b"] "a,b", stringNode "sum"] "group(a,b),\"sum\""

/-- The request `sumSeries(group(a,b))`. -/
def sumSeriesOverGroup : Expr :=
  funcNode "sumSeries" [funcNode "group" [nameNode "a", nameNode "b"] "a,b"] "group(a,b)"

/-- The request `aggregate(*, "max")`. -/
def aggregateMaxOverStar : Expr :=
  funcNode "aggregate" [nameNode "*", stringNode "max"] "*,\"max\""

/-- The request `sumSeries(nothing, "max")`. -/
def sumSeriesMaxOverNothing : Expr :=
  funcNode "sumSeries" [nameNode "nothing", stringNode "max"] "nothing,\"max\""

/-! ## Statement vocabulary -/

/-- A returned series `o` is the engine's series `m` with the tag
`aggregatedBy` set to `callback`: every field but the tags is the same, the tag
`aggregatedBy` reads `callback`, and every other tag reads as in `m`. -/
def TaggedFrom (callback : String) (m o : MetricData) : Prop :=
  o.Name = m.Name ∧ o.Values = m.Values ∧ o.StartTime = m.StartTime ∧
    o.StopTime = m.StopTime ∧ o.StepTime = m.StepTime ∧ o.XFilesFactor = m.XFilesFactor ∧
    mapGet o.Tags "aggregatedBy" = some callback ∧
    ∀ k, k ≠ "aggregatedBy" → mapGet o.Tags k = mapGet m.Tags k

/-- The returns of `Do` that come before line 80, each with the results and
the error it hands back. -/
inductive EarlyExit (env : Env) (e : Expr) : Slice MetricData → Option Error → Prop where
  /-- Lines 47 and 48: no statistic name under the target `aggregate`. -/
  | usage (x : Error) (ht : e.Target = "aggregate") (hs : e.GetStringArg 1 = .error x) :
    EarlyExit env e none (some x)
  /-- Lines 51 to 53: series resolution fails in the alias form. -/
  | aliasResolution (x y : Error) (hs : e.GetStringArg 1 = .error y)
      (ht : e.Target ≠ "aggregate")
      (hr : env.GetSeriesArgsAndRemoveNonExisting e = .error x) :
    EarlyExit env e none (some x)
  /-- Lines 63 to 65: series resolution fails in the canonical form. -/
  | canonicalResolution (x : Error) (callback : String) (a0 : Expr)
      (hs : e.GetStringArg 1 = .ok callback) (ha : e.Arg 0 = some a0)
      (hr : env.GetSeriesArg a0 = .error x) :
    EarlyExit env e none (some x)
  /-- Lines 71 to 73: the threshold argument does not read as a float. -/
  | thresholdParse (x : Error) (callback : String) (first : MetricData)
      (rest : List MetricData) (hc : CanonicalForm env e callback (first :: rest))
      (hf : e.GetFloatArgDefault 2 first.XFilesFactor = .error x) :
    EarlyExit env e none (some x)
  /-- Lines 77 to 79, reached from the alias form: unknown statistic name. -/
  | aliasUnsupported (args : List MetricData) (ha : AliasForm env e args) (hne : args ≠ [])
      (hkey : env.ConsolidationToFunc (strings.Replace e.Target "Series" "" 1) = none) :
    EarlyExit env e none
      (some ⟨"unsupported consolidation function " ++ strings.Replace e.Target "Series" "" 1⟩)
  /-- Lines 77 to 79, reached from the canonical form: unknown statistic name. -/
  | canonicalUnsupported (args : List MetricData) (callback : String) (x : Float64)
      (hc : CanonicalForm env e callback args) (hx : ThresholdReads e args x)
      (hkey : env.ConsolidationToFunc callback = none) :
    EarlyExit env e none (some ⟨"unsupported consolidation function " ++ callback⟩)
  /-- Lines 54 to 56: no series in the alias form. -/
  | aliasEmpty (ha : AliasForm env e []) : EarlyExit env e (some []) none
  /-- Lines 66 to 68: no series in the canonical form. -/
  | canonicalEmpty (callback : String) (hc : CanonicalForm env e callback []) :
    EarlyExit env e (some []) none

/-- The sample environment with a fetch layer that is down. -/
def failingEnv : Env :=
  { sampleEnv with
    GetSeriesArgsAndRemoveNonExisting := fun _ => .error ⟨"fetch failed"⟩
    GetSeriesArg := fun _ => .error ⟨"fetch failed"⟩ }

/-! ## Lemmas on the Go runtime pieces -/

theorem mapGet_mapSet_same (m : StringMap) (k v : String) : mapGet (mapSet m k v) k = some v := by
  induction m with
  | nil => simp [mapSet, mapGet]
  | cons kv rest ih =>
    obtain ⟨k', v'⟩ := kv
    by_cases h : k' = k
    · simp [mapSet, mapGet, h]
    · simp [mapSet, mapGet, h, ih]

theorem mapGet_mapSet_other (m : StringMap) (k v k' : String) (h : k' ≠ k) :
    mapGet (mapSet m k v) k' = mapGet m k' := by
  induction m with
  | nil => simp [mapSet, mapGet, Ne.symm h]
  | cons kv rest ih =>
    obtain ⟨k₁, v₁⟩ := kv
    by_cases h₁ : k₁ = k
    · subst h₁
      simp [mapSet, mapGet, Ne.symm h]
    · by_cases h₂ : k₁ = k'
      · subst h₂
        simp [mapSet, mapGet, h₁]
      · simp [mapSet, mapGet, h₁, h₂, ih]

theorem strings.cutFirst_none (old s : List Char) (h : ¬ old <:+: s) :
    strings.cutFirst old s = none := by
  induction s with
  | nil => rfl
  | cons c cs ih =>
    have h1 : old.isPrefixOf (c :: cs) = false := by
      cases hp : old.isPrefixOf (c :: cs) with
      | false => rfl
      | true => exact absurd (List.isPrefixOf_iff_prefix.mp hp).isInfix h
    have h2 : ¬ old <:+: cs := fun hi => h (hi.trans (List.suffix_cons c cs).isInfix)
    simp [strings.cutFirst, h1, ih h2]

theorem series_not_overlapping (n : List Char) (hn : n ≠ [])
    (h : "Series".data.isPrefixOf (n ++ "Series".data) = true) : "Series".data <:+: n := by
  have hd : "Series".data = ['S', 'e', 'r', 'i', 'e', 's'] := rfl
  rw [hd] at h ⊢
  rcases n with _ | ⟨c1, _ | ⟨c2, _ | ⟨c3, _ | ⟨c4, _ | ⟨c5, _ | ⟨c6, rest⟩⟩⟩⟩⟩⟩
  · exact absurd rfl hn
  all_goals simp [List.isPrefixOf] at h
  obtain ⟨rfl, rfl, rfl, rfl, rfl, rfl⟩ := h
  exact (List.prefix_append _ rest).isInfix

theorem strings.cutFirst_trailing (n : List Char) (h : ¬ "Series".data <:+: n) :
    strings.cutFirst "Series".data (n ++ "Series".data) = some (n, []) := by
  induction n with
  | nil => rfl
  | cons c cs ih =>
    have h1 : "Series".data.isPrefixOf (c :: cs ++ "Series".data) = false := by
      cases hp : "Series".data.isPrefixOf (c :: cs ++ "Series".data) with
      | false => rfl
      | true => exact absurd (series_not_overlapping (c :: cs) (by simp) hp) h
    have h2 : ¬ "Series".data <:+: cs := fun hi => h (hi.trans (List.suffix_cons c cs).isInfix)
    simp only [List.cons_append] at h1 ⊢
    simp [strings.cutFirst, h1, ih h2]

theorem strings.Replace_no_Series (t : String) (h : ¬ ContainsSeries t) :
    strings.Replace t "Series" "" 1 = t := by
  have hd : "Series".data ≠ [] := by decide
  simp [strings.Replace, hd, strings.replaceOccurrences, strings.cutFirst_none _ _ h]

theorem strings.Replace_trailing_Series (n : String) (h : ¬ ContainsSeries n) :
    strings.Replace (n ++ "Series") "Series" "" 1 = n := by
  have hd : "Series".data ≠ [] := by decide
  simp [strings.Replace, hd, strings.replaceOccurrences, strings.cutFirst_trailing _ h]

theorem strings.Replace_eq_TrimSuffix (t : String)
    (h : ¬ ContainsSeries (strings.TrimSuffix t "Series")) :
    strings.Replace t "Series" "" 1 = strings.TrimSuffix t "Series" := by
  unfold strings.TrimSuffix at h ⊢
  cases hs : "Series".data.isSuffixOf t.data with
  | false =>
    simp only [hs, Bool.false_eq_true, if_false] at h ⊢
    exact strings.Replace_no_Series t h
  | true =>
    simp only [hs, if_true] at h ⊢
    obtain ⟨pre, hpre⟩ := List.isSuffixOf_iff_suffix.mp hs
    have htake : t.data.take (t.data.length - "Series".data.length) = pre := by
      rw [← hpre]; simp
    rw [htake] at h ⊢
    have ht : t = (⟨pre⟩ : String) ++ "Series" := by
      apply String.ext
      simp [hpre]
    rw [ht]
    exact strings.Replace_trailing_Series ⟨pre⟩ h

/-! ## Lemmas on the paths through `Do` -/

theorem Expr.arg0_of_getStringArg1 (e : Expr) (callback : String)
    (h : e.GetStringArg 1 = .ok callback) : ∃ a0, e.Arg 0 = some a0 := by
  obtain ⟨t, k, v, s, args, r⟩ := e
  match args with
  | [] => simp [Expr.GetStringArg, Expr.args] at h
  | a :: _ => exact ⟨a, rfl⟩

theorem Expr.arg_setTarget (e : Expr) (t : String) (i : Nat) : (e.SetTarget t).Arg i = e.Arg i := by
  obtain ⟨_, _, _, _, _, _⟩ := e
  rfl

theorem Expr.target_setTarget (e : Expr) (t : String) : (e.SetTarget t).Target = t := by
  obtain ⟨_, _, _, _, _, _⟩ := e
  rfl

theorem Expr.rawArgs_setTarget (e : Expr) (t : String) : (e.SetTarget t).RawArgs = e.RawArgs := by
  obtain ⟨_, _, _, _, _, _⟩ := e
  rfl

theorem Expr.target_setRawArgs (e : Expr) (r : String) : (e.SetRawArgs r).Target = e.Target := by
  obtain ⟨_, _, _, _, _, _⟩ := e
  rfl

theorem Expr.rawArgs_setRawArgs (e : Expr) (r : String) : (e.SetRawArgs r).RawArgs = r := by
  obtain ⟨_, _, _, _, _, _⟩ := e
  rfl

theorem prepare_usage (env : Env) (e : Expr) (err : Error) (ht : e.Target = "aggregate")
    (hs : e.GetStringArg 1 = .error err) : prepare env e = .returned ⟨none, some err, e⟩ := by
  simp [prepare, hs, ht]

theorem prepare_alias (env : Env) (e : Expr) (args : List MetricData)
    (h : AliasForm env e args) (hne : args ≠ []) :
    prepare env e =
      lookupAndRewrite env e args (strings.Replace e.Target "Series" "" 1) false (-1) := by
  obtain ⟨⟨err, hs⟩, ht, hr⟩ := h
  simp [prepare, hs, ht, hr, hne]

theorem prepare_alias_empty (env : Env) (e : Expr) (h : AliasForm env e []) :
    prepare env e = .returned ⟨some [], none, e⟩ := by
  obtain ⟨⟨err, hs⟩, ht, hr⟩ := h
  simp [prepare, hs, ht, hr]

theorem prepare_canonical (env : Env) (e : Expr) (callback : String) (args : List MetricData)
    (x : Float64) (h : CanonicalForm env e callback args) (hx : ThresholdReads e args x) :
    prepare env e = lookupAndRewrite env e args callback true x := by
  obtain ⟨hs, a0, ha, hr⟩ := h
  obtain ⟨first, rest, rfl, hf⟩ := hx
  simp [prepare, hs, ha, hr, hf]

theorem prepare_canonical_empty (env : Env) (e : Expr) (callback : String)
    (h : CanonicalForm env e callback []) : prepare env e = .returned ⟨some [], none, e⟩ := by
  obtain ⟨hs, a0, ha, hr⟩ := h
  simp [prepare, hs, ha, hr]

theorem lookupAndRewrite_unknown (env : Env) (e : Expr) (args : List MetricData)
    (callback : String) (b : Bool) (x : Float64) (hkey : env.ConsolidationToFunc callback = none) :
    lookupAndRewrite env e args callback b x =
      .returned ⟨none, some ⟨"unsupported consolidation function " ++ callback⟩, e⟩ := by
  simp [lookupAndRewrite, hkey]

theorem Do_of_returned (env : Env) (e : Expr) (r : DoResult) (h : prepare env e = .returned r) :
    Do env e = some r := by
  simp [Do, h]

theorem lookupAndRewrite_not_panicked (env : Env) (e a0 : Expr) (args : List MetricData)
    (callback : String) (b : Bool) (x : Float64) (ha : b = true → e.Arg 0 = some a0) :
    lookupAndRewrite env e args callback b x ≠ .panicked := by
  unfold lookupAndRewrite
  cases env.ConsolidationToFunc callback with
  | none => simp
  | some f =>
    cases b with
    | false => simp
    | true => simp [Expr.arg_setTarget, ha rfl]

theorem prepare_not_panicked (env : Env) (e : Expr) : prepare env e ≠ .panicked := by
  unfold prepare
  cases hs : e.GetStringArg 1 with
  | error err =>
    simp only
    split
    · simp
    · cases env.GetSeriesArgsAndRemoveNonExisting e with
      | error err' => simp
      | ok args =>
        simp only
        split
        · simp
        · exact lookupAndRewrite_not_panicked env e e args _ false (-1) (by simp)
  | ok callback =>
    obtain ⟨a0, ha0⟩ := Expr.arg0_of_getStringArg1 e callback hs
    simp only [ha0]
    cases env.GetSeriesArg a0 with
    | error err' => simp
    | ok args =>
      cases args with
      | nil => simp
      | cons first rest =>
        simp only
        cases e.GetFloatArgDefault 2 first.XFilesFactor with
        | error err' => simp
        | ok x => exact lookupAndRewrite_not_panicked env e a0 _ callback true x (fun _ => ha0)

theorem Do_returns (env : Env) (e : Expr) : ∃ r, Do env e = some r := by
  unfold Do
  cases hp : prepare env e with
  | panicked => exact absurd hp (prepare_not_panicked env e)
  | returned r => exact ⟨r, rfl⟩
  | call c =>
    simp only
    cases env.AggregateSeries c.e c.args c.aggFunc c.xFilesFactor env.ExtractTagsFromArgs with
    | error err => exact ⟨_, rfl⟩
    | ok results => exact ⟨_, rfl⟩

theorem Do_eq_of_call (env : Env) (e : Expr) (c : EngineCall) (h : prepare env e = .call c) :
    Do env e = some (returnFromEngine c.callback c.e
      (env.AggregateSeries c.e c.args c.aggFunc c.xFilesFactor env.ExtractTagsFromArgs)) := by
  simp only [Do, h, returnFromEngine]
  cases env.AggregateSeries c.e c.args c.aggFunc c.xFilesFactor env.ExtractTagsFromArgs <;> rfl

/-! ## Unknown statistic (C1) -/

/-- C1, as amended: when series resolution yields a non-empty list (and, in the
canonical form, the threshold argument reads), a statistic name that is not a
key of the consolidation table makes `Do` fail with the error
`unsupported consolidation function <name>`, return the nil slice and leave the
node as it was. The name is the string at argument 1 in the canonical form and
`strings.Replace(target, "Series", "", 1)` in the alias form. -/
theorem Do_unsupported_consolidation (env : Env) (e : Expr) (args : List MetricData)
    (callback : String)
    (hform : (AliasForm env e args ∧ args ≠ [] ∧
        callback = strings.Replace e.Target "Series" "" 1) ∨
      (CanonicalForm env e callback args ∧ ∃ x, ThresholdReads e args x))
    (hkey : env.ConsolidationToFunc callback = none) :
    Do env e =
      some ⟨none, some ⟨"unsupported consolidation function " ++ callback⟩, e⟩ := by
  apply Do_of_returned
  rcases hform with ⟨ha, hne, rfl⟩ | ⟨hc, x, hx⟩
  · rw [prepare_alias env e args ha hne]
    exact lookupAndRewrite_unknown env e args _ false (-1) hkey
  · rw [prepare_canonical env e callback args x hc hx]
    exact lookupAndRewrite_unknown env e args callback true x hkey

/-- C1, witness: `aggregate(a, "bogus")` and `bogusSeries(a)` over the sample
environment both fail with the error naming `bogus`. -/
theorem Do_unsupported_consolidation_witness :
    Do sampleEnv bogusOverA =
        some ⟨none, some ⟨"unsupported consolidation function bogus"⟩, bogusOverA⟩ ∧
      Do sampleEnv bogusSeriesOverA =
        some ⟨none, some ⟨"unsupported consolidation function bogus"⟩, bogusSeriesOverA⟩ :=
  ⟨Do_unsupported_consolidation sampleEnv bogusOverA (sampleStore "a") "bogus"
      (Or.inr ⟨⟨rfl, nameNode "a", rfl, rfl⟩, 1, _, _, rfl, rfl⟩) rfl,
    Do_unsupported_consolidation sampleEnv bogusSeriesOverA (sampleStore "a") "bogus"
      (Or.inl ⟨⟨⟨_, rfl⟩, by decide, rfl⟩, by decide, by decide⟩) rfl⟩

/-- C1, counterexample to the claim as stated: with the unknown statistic
`bogus` in the canonical form, an empty resolved list gives the empty result
and no error, and an unreadable threshold argument gives the getter's error
instead of the unsupported-consolidation error. -/
theorem Do_unknown_statistic_counterexample :
    sampleEnv.ConsolidationToFunc "bogus" = none ∧
      CanonicalForm sampleEnv bogusOverNothing "bogus" [] ∧
      (Do sampleEnv bogusOverNothing).map (fun r => (r.results, r.err)) =
        some (some [], none) ∧
      CanonicalForm sampleEnv bogusBadThreshold "bogus" (sampleStore "a") ∧
      (Do sampleEnv bogusBadThreshold).map (fun r => (r.results, r.err)) =
        some (none, some ⟨"bad type"⟩) :=
  ⟨rfl, ⟨rfl, nameNode "nothing", rfl, rfl⟩, by decide, ⟨rfl, nameNode "a", rfl, rfl⟩,
    by decide⟩

/-! ## Usage error (C2) -/

/-- C2: under the target `aggregate`, when argument 1 does not read as a
string, `Do` returns the getter's error with the nil slice and leaves the node
as it was, whatever the resolution helpers, the table and the engine are: none
of them has a say in the result. -/
theorem Do_usage_error (env : Env) (e : Expr) (err : Error) (ht : e.Target = "aggregate")
    (hs : e.GetStringArg 1 = .error err) :
    Do env e = some ⟨none, some err, e⟩ ∧ ∀ env', Do env' e = Do env e := by
  have h : ∀ env', Do env' e = some ⟨none, some err, e⟩ := fun env' =>
    Do_of_returned env' e _ (prepare_usage env' e err ht hs)
  exact ⟨h env, fun env' => by rw [h env', h env]⟩

/-- C2, witness: `aggregate(a)` has no argument 1. -/
theorem Do_usage_error_witness :
    aggregateNoStat.Target = "aggregate" ∧
      aggregateNoStat.GetStringArg 1 = .error ⟨"missing argument"⟩ ∧
      Do sampleEnv aggregateNoStat = some ⟨none, some ⟨"missing argument"⟩, aggregateNoStat⟩ :=
  ⟨rfl, rfl, (Do_usage_error sampleEnv aggregateNoStat ⟨"missing argument"⟩ rfl rfl).1⟩

/-! ## Empty input (C3) -/

/-- C3: in the alias form and in the canonical form alike, when series
resolution succeeds with zero series `Do` returns an allocated empty slice and
no error (and leaves the node as it was). -/
theorem Do_empty_input (env : Env) (e : Expr)
    (h : AliasForm env e [] ∨ ∃ callback, CanonicalForm env e callback []) :
    Do env e = some ⟨some [], none, e⟩ := by
  apply Do_of_returned
  rcases h with ha | ⟨callback, hc⟩
  · exact prepare_alias_empty env e ha
  · exact prepare_canonical_empty env e callback hc

/-- C3, witness: `sumSeries(nothing)` and `aggregate(nothing, "sum")`. -/
theorem Do_empty_input_witness :
    Do sampleEnv sumSeriesOverNothing = some ⟨some [], none, sumSeriesOverNothing⟩ ∧
      Do sampleEnv aggregateSumOverNothing = some ⟨some [], none, aggregateSumOverNothing⟩ :=
  ⟨Do_empty_input sampleEnv sumSeriesOverNothing (Or.inl ⟨⟨_, rfl⟩, by decide, rfl⟩),
    Do_empty_input sampleEnv aggregateSumOverNothing
      (Or.inr ⟨"sum", rfl, nameNode "nothing", rfl, rfl⟩)⟩

/-! ## The returned series (C4) -/

theorem lookupAndRewrite_alias (env : Env) (e : Expr) (args : List MetricData)
    (callback : String) (x : Float64) (f : AggFunc)
    (hkey : env.ConsolidationToFunc callback = some f) :
    lookupAndRewrite env e args callback false x =
      .call ⟨e.SetTarget (callback ++ "Series"), args, f, x, callback⟩ := by
  simp [lookupAndRewrite, hkey]

theorem lookupAndRewrite_canonical (env : Env) (e a0 : Expr) (args : List MetricData)
    (callback : String) (x : Float64) (f : AggFunc)
    (hkey : env.ConsolidationToFunc callback = some f) (ha : e.Arg 0 = some a0) :
    lookupAndRewrite env e args callback true x =
      .call ⟨(e.SetTarget (callback ++ "Series")).SetRawArgs a0.Target, args, f, x,
        callback⟩ := by
  simp [lookupAndRewrite, hkey, Expr.arg_setTarget, ha]

theorem lookupAndRewrite_call (env : Env) (e : Expr) (args : List MetricData)
    (callback : String) (b : Bool) (x : Float64) (c : EngineCall)
    (h : lookupAndRewrite env e args callback b x = .call c) :
    c.args = args ∧ c.callback = callback ∧ c.xFilesFactor = x ∧
      env.ConsolidationToFunc callback = some c.aggFunc := by
  unfold lookupAndRewrite at h
  cases hk : env.ConsolidationToFunc callback with
  | none => simp [hk] at h
  | some f =>
    simp only [hk] at h
    cases b with
    | false =>
      simp only [Bool.false_eq_true, if_false, Prepared.call.injEq] at h
      subst h
      exact ⟨rfl, rfl, rfl, rfl⟩
    | true =>
      simp only [if_true] at h
      cases ha : (e.SetTarget (callback ++ "Series")).Arg 0 with
      | none => simp [ha] at h
      | some a0 =>
        simp only [ha, Prepared.call.injEq] at h
        subst h
        exact ⟨rfl, rfl, rfl, rfl⟩

theorem taggedFrom_tagResult (callback : String) (m : MetricData) :
    TaggedFrom callback m (tagResult callback m) :=
  ⟨rfl, rfl, rfl, rfl, rfl, rfl, mapGet_mapSet_same m.Tags "aggregatedBy" callback,
    fun k hk => mapGet_mapSet_other m.Tags "aggregatedBy" callback k hk⟩

theorem forall₂_taggedFrom_map (callback : String) (l : List MetricData) :
    List.Forall₂ (TaggedFrom callback) l (l.map (tagResult callback)) := by
  induction l with
  | nil => exact List.Forall₂.nil
  | cons m rest ih => exact List.Forall₂.cons (taggedFrom_tagResult callback m) ih

theorem Do_of_call (env : Env) (e : Expr) (c : EngineCall) (r : DoResult)
    (hcall : prepare env e = .call c) (hDo : Do env e = some r) (hok : r.err = none) :
    ∃ results,
      env.AggregateSeries c.e c.args c.aggFunc c.xFilesFactor env.ExtractTagsFromArgs =
        .ok results ∧
      r.results = results.map (List.map (tagResult c.callback)) ∧ r.node = c.e := by
  simp only [Do, hcall] at hDo
  cases hr : env.AggregateSeries c.e c.args c.aggFunc c.xFilesFactor env.ExtractTagsFromArgs with
  | error err =>
    simp only [hr, Option.some.injEq] at hDo
    subst hDo
    simp at hok
  | ok results =>
    simp only [hr, Option.some.injEq] at hDo
    subst hDo
    exact ⟨results, rfl, rfl, rfl⟩

theorem prepare_call_of_success (env : Env) (e : Expr) (args : List MetricData) (r : DoResult)
    (hform : AliasForm env e args ∨ ∃ callback, CanonicalForm env e callback args)
    (hne : args ≠ []) (hDo : Do env e = some r) (hok : r.err = none) :
    ∃ c, prepare env e = .call c ∧ c.args = args ∧
      env.ConsolidationToFunc c.callback = some c.aggFunc := by
  cases hp : prepare env e with
  | panicked => simp [Do, hp] at hDo
  | call c =>
    refine ⟨c, rfl, ?_⟩
    rcases hform with ha | ⟨callback, hc⟩
    · rw [prepare_alias env e args ha hne] at hp
      obtain ⟨h1, h2, -, h4⟩ := lookupAndRewrite_call env e args _ false (-1) c hp
      exact ⟨h1, h2 ▸ h4⟩
    · obtain ⟨hs, a0, ha, hres⟩ := hc
      match args, hne, hres with
      | first :: rest, _, hres =>
        simp only [prepare, hs, ha, hres] at hp
        cases hf : e.GetFloatArgDefault 2 first.XFilesFactor with
        | error err => simp [hf] at hp
        | ok x =>
          simp only [hf] at hp
          obtain ⟨h1, h2, -, h4⟩ := lookupAndRewrite_call env e _ _ true x c hp
          exact ⟨h1, h2 ▸ h4⟩
  | returned r' =>
    exfalso
    have hr : r = r' := by
      simp only [Do, hp, Option.some.injEq] at hDo
      exact hDo.symm
    subst hr
    rcases hform with ha | ⟨callback, hc⟩
    · rw [prepare_alias env e args ha hne] at hp
      unfold lookupAndRewrite at hp
      cases hk : env.ConsolidationToFunc (strings.Replace e.Target "Series" "" 1) with
      | none =>
        simp only [hk, Prepared.returned.injEq] at hp
        subst hp
        simp at hok
      | some f => simp [hk] at hp
    · obtain ⟨hs, a0, ha, hres⟩ := hc
      match args, hne, hres with
      | first :: rest, _, hres =>
        simp only [prepare, hs, ha, hres] at hp
        cases hf : e.GetFloatArgDefault 2 first.XFilesFactor with
        | error err =>
          simp only [hf, Prepared.returned.injEq] at hp
          subst hp
          simp at hok
        | ok x =>
          simp only [hf] at hp
          unfold lookupAndRewrite at hp
          cases hk : env.ConsolidationToFunc callback with
          | none =>
            simp only [hk, Prepared.returned.injEq] at hp
            subst hp
            simp at hok
          | some f => simp [hk, Expr.arg_setTarget, ha] at hp

/-- C4: whenever `Do` succeeds on a non-empty resolved input, it has called the
engine on that input with the reducer the table holds for the statistic name,
and what it returns is the engine's slice (nil stays nil) with the same number
of series in the same order, each equal to the engine's in name, values, time
bounds, step and threshold, carrying `aggregatedBy` = the statistic name and
reading every other tag as the engine produced it. -/
theorem Do_returns_engine_series (env : Env) (e : Expr) (args : List MetricData) (r : DoResult)
    (hform : AliasForm env e args ∨ ∃ callback, CanonicalForm env e callback args)
    (hne : args ≠ []) (hDo : Do env e = some r) (hok : r.err = none) :
    ∃ c results, prepare env e = .call c ∧ c.args = args ∧
      env.ConsolidationToFunc c.callback = some c.aggFunc ∧
      env.AggregateSeries c.e c.args c.aggFunc c.xFilesFactor env.ExtractTagsFromArgs =
        .ok results ∧
      r.results.isSome = results.isSome ∧
      (r.results.getD []).length = (results.getD []).length ∧
      List.Forall₂ (TaggedFrom c.callback) (results.getD []) (r.results.getD []) := by
  obtain ⟨c, hcall, hargs, hkey⟩ := prepare_call_of_success env e args r hform hne hDo hok
  obtain ⟨results, hres, hr, -⟩ := Do_of_call env e c r hcall hDo hok
  refine ⟨c, results, hcall, hargs, hkey, hres, ?_, ?_, ?_⟩
  · rw [hr]
    cases results <;> rfl
  · rw [hr]
    cases results <;> simp
  · rw [hr]
    cases results with
    | none => exact List.Forall₂.nil
    | some l => exact forall₂_taggedFrom_map c.callback l

/-- C4, witness: `sumSeries(a,b)` over the sample environment succeeds with one
series, the sums `[4, 5]`, tagged `aggregatedBy` = `sum`. -/
theorem Do_returns_engine_series_witness :
    ∃ c results, prepare sampleEnv sumSeriesOverAB = .call c ∧ c.args = [seriesA, seriesB] ∧
      sampleEnv.ConsolidationToFunc c.callback = some c.aggFunc ∧
      sampleEnv.AggregateSeries c.e c.args c.aggFunc c.xFilesFactor
        sampleEnv.ExtractTagsFromArgs = .ok results ∧
      true = results.isSome ∧ 1 = (results.getD []).length ∧
      List.Forall₂ (TaggedFrom c.callback) (results.getD [])
        [⟨"sumSeries(a,b)", [some 4, some 5], 0, 2, 1, 1,
          [("dc", "x"), ("aggregatedBy", "sum")]⟩] :=
  Do_returns_engine_series sampleEnv sumSeriesOverAB [seriesA, seriesB]
    ⟨some [⟨"sumSeries(a,b)", [some 4, some 5], 0, 2, 1, 1,
      [("dc", "x"), ("aggregatedBy", "sum")]⟩], none, sumSeriesOverAB.SetTarget "sumSeries"⟩
    (Or.inl ⟨⟨_, rfl⟩, by decide, rfl⟩) (by simp) (by with_unfolding_all rfl) rfl

/-! ## Aliases of the average (C5) -/

theorem prepare_alias_call (env : Env) (e : Expr) (args : List MetricData) (f : AggFunc)
    (h : AliasForm env e args) (hne : args ≠ [])
    (hkey : env.ConsolidationToFunc (strings.Replace e.Target "Series" "" 1) = some f) :
    prepare env e = .call ⟨e.SetTarget (strings.Replace e.Target "Series" "" 1 ++ "Series"),
      args, f, -1, strings.Replace e.Target "Series" "" 1⟩ := by
  rw [prepare_alias env e args h hne]
  exact lookupAndRewrite_alias env e args _ (-1) f hkey

theorem prepare_canonical_call (env : Env) (e a0 : Expr) (callback : String)
    (args : List MetricData) (x : Float64) (f : AggFunc)
    (h : CanonicalForm env e callback args) (hx : ThresholdReads e args x)
    (hkey : env.ConsolidationToFunc callback = some f) (ha : e.Arg 0 = some a0) :
    prepare env e = .call ⟨(e.SetTarget (callback ++ "Series")).SetRawArgs a0.Target,
      args, f, x, callback⟩ := by
  rw [prepare_canonical env e callback args x h hx]
  exact lookupAndRewrite_canonical env e a0 args callback x f hkey ha

theorem Do_tag_of_call (env : Env) (e : Expr) (c : EngineCall) (r : DoResult)
    (rs : List MetricData) (o : MetricData) (hcall : prepare env e = .call c)
    (hDo : Do env e = some r) (hrs : r.results = some rs) (ho : o ∈ rs) :
    mapGet o.Tags "aggregatedBy" = some c.callback := by
  simp only [Do, hcall] at hDo
  cases hr : env.AggregateSeries c.e c.args c.aggFunc c.xFilesFactor env.ExtractTagsFromArgs with
  | error err =>
    simp only [hr, Option.some.injEq] at hDo
    subst hDo
    simp at hrs
  | ok results =>
    simp only [hr, Option.some.injEq] at hDo
    subst hDo
    cases results with
    | none => simp at hrs
    | some l =>
      simp only [Option.map_some', Option.some.injEq] at hrs
      subst hrs
      obtain ⟨m, -, rfl⟩ := List.mem_map.mp ho
      exact mapGet_mapSet_same m.Tags "aggregatedBy" c.callback

/-- C5, as amended: for any series `A` and `B`, each of `avg(A,B)`,
`averageSeries(A,B)` and `aggregate(group(A,B), "average")` returns what lines
88 to 96 make of the engine's outcome on the same list `[A, B]`: for the two
alias forms with the threshold disabled (-1) and the reducers the table holds
under `avg` and under `average`, for the canonical form with the reducer for
`average` and the threshold read at line 70. For `averageSeries` and
`aggregate` the engine is called on a node with the target `averageSeries` and
every series returned carries `aggregatedBy` = `average`. Nothing is said of
the tag and the node of `avg(A,B)`. -/
theorem Do_average_aliases (env : Env) (eAvg eAverageSeries eAggregate : Expr)
    (A B : MetricData) (fAvg fAverage : AggFunc) (x : Float64)
    (hAvg : eAvg.Target = "avg" ∧ AliasForm env eAvg [A, B])
    (hAverageSeries : eAverageSeries.Target = "averageSeries" ∧
      AliasForm env eAverageSeries [A, B])
    (hAggregate : CanonicalForm env eAggregate "average" [A, B] ∧
      ThresholdReads eAggregate [A, B] x)
    (hkAvg : env.ConsolidationToFunc "avg" = some fAvg)
    (hkAverage : env.ConsolidationToFunc "average" = some fAverage) :
    (∃ node callback, Do env eAvg = some (returnFromEngine callback node
        (env.AggregateSeries node [A, B] fAvg (-1) env.ExtractTagsFromArgs))) ∧
      (∃ node, node.Target = "averageSeries" ∧
        Do env eAverageSeries = some (returnFromEngine "average" node
          (env.AggregateSeries node [A, B] fAverage (-1) env.ExtractTagsFromArgs))) ∧
      (∃ node, node.Target = "averageSeries" ∧
        Do env eAggregate = some (returnFromEngine "average" node
          (env.AggregateSeries node [A, B] fAverage x env.ExtractTagsFromArgs))) ∧
      (∀ r rs o, Do env eAverageSeries = some r → r.results = some rs → o ∈ rs →
        mapGet o.Tags "aggregatedBy" = some "average") ∧
      (∀ r rs o, Do env eAggregate = some r → r.results = some rs → o ∈ rs →
        mapGet o.Tags "aggregatedBy" = some "average") := by
  obtain ⟨ht1, h1⟩ := hAvg
  obtain ⟨ht2, h2⟩ := hAverageSeries
  obtain ⟨h3, hx⟩ := hAggregate
  have hn1 : strings.Replace eAvg.Target "Series" "" 1 = "avg" := by rw [ht1]; decide
  have hn2 : strings.Replace eAverageSeries.Target "Series" "" 1 = "average" := by
    rw [ht2]; decide
  have hc1 := prepare_alias_call env eAvg [A, B] fAvg h1 (by simp) (by rw [hn1]; exact hkAvg)
  have hc2 := prepare_alias_call env eAverageSeries [A, B] fAverage h2 (by simp)
    (by rw [hn2]; exact hkAverage)
  obtain ⟨a0, ha0⟩ := Expr.arg0_of_getStringArg1 eAggregate "average" h3.1
  have hc3 := prepare_canonical_call env eAggregate a0 "average" [A, B] x fAverage h3 hx
    hkAverage ha0
  rw [hn2] at hc2
  have hs : "average" ++ "Series" = "averageSeries" := by decide
  refine ⟨⟨_, _, Do_eq_of_call env eAvg _ hc1⟩, ⟨_, ?_, Do_eq_of_call env eAverageSeries _ hc2⟩,
    ⟨_, ?_, Do_eq_of_call env eAggregate _ hc3⟩, ?_, ?_⟩
  · exact (Expr.target_setTarget _ _).trans hs
  · exact ((Expr.target_setRawArgs _ _).trans (Expr.target_setTarget _ _)).trans hs
  · intro r rs o hDo hrs ho
    exact Do_tag_of_call env eAverageSeries _ r rs o hc2 hDo hrs ho
  · intro r rs o hDo hrs ho
    exact Do_tag_of_call env eAggregate _ r rs o hc3 hDo hrs ho

/-- C5, witness: the three invocations over the sample series `a` and `b`; the
canonical form reads the threshold 1 that `a` carries. -/
theorem Do_average_aliases_witness :
    (∃ node callback, Do sampleEnv avgOverAB = some (returnFromEngine callback node
        (sampleEnv.AggregateSeries node [seriesA, seriesB] sampleMean (-1)
          sampleEnv.ExtractTagsFromArgs))) ∧
      (∃ node, node.Target = "averageSeries" ∧
        Do sampleEnv averageSeriesOverAB = some (returnFromEngine "average" node
          (sampleEnv.AggregateSeries node [seriesA, seriesB] sampleMean (-1)
            sampleEnv.ExtractTagsFromArgs))) ∧
      (∃ node, node.Target = "averageSeries" ∧
        Do sampleEnv aggregateAverageOverGroup = some (returnFromEngine "average" node
          (sampleEnv.AggregateSeries node [seriesA, seriesB] sampleMean 1
            sampleEnv.ExtractTagsFromArgs))) ∧
      (∀ r rs o, Do sampleEnv averageSeriesOverAB = some r → r.results = some rs → o ∈ rs →
        mapGet o.Tags "aggregatedBy" = some "average") ∧
      (∀ r rs o, Do sampleEnv aggregateAverageOverGroup = some r → r.results = some rs →
        o ∈ rs → mapGet o.Tags "aggregatedBy" = some "average") :=
  Do_average_aliases sampleEnv avgOverAB averageSeriesOverAB aggregateAverageOverGroup
    seriesA seriesB _ _ 1 ⟨rfl, ⟨_, rfl⟩, by decide, rfl⟩ ⟨rfl, ⟨_, rfl⟩, by decide, rfl⟩
    ⟨⟨rfl, _, rfl, rfl⟩, _, _, rfl, rfl⟩ rfl rfl

/-- C5, counterexample to the claim as stated: with `a` carrying the threshold
1 and missing its second sample, `averageSeries(a,b)` returns the values
`[2, 5]` while `aggregate(group(a,b), "average")` returns `[2, missing]`; and
the series `avg(a,b)` returns is tagged `aggregatedBy` = `avg`, not
`average`. -/
theorem Do_average_aliases_counterexample :
    ∃ o₁ o₂ o₃, (Do sampleEnv avgOverAB).map (fun r => r.results) = some (some [o₁]) ∧
      (Do sampleEnv averageSeriesOverAB).map (fun r => r.results) = some (some [o₂]) ∧
      (Do sampleEnv aggregateAverageOverGroup).map (fun r => r.results) = some (some [o₃]) ∧
      mapGet o₁.Tags "aggregatedBy" = some "avg" ∧
      mapGet o₁.Tags "aggregatedBy" ≠ some "average" ∧
      o₂.Values = [some 2, some 5] ∧ o₃.Values = [some 2, none] ∧ o₂.Values ≠ o₃.Values :=
  ⟨⟨"avgSeries(a,b)", [some 2, some 5], 0, 2, 1, 1, [("dc", "x"), ("aggregatedBy", "avg")]⟩,
    ⟨"averageSeries(a,b)", [some 2, some 5], 0, 2, 1, 1,
      [("dc", "x"), ("aggregatedBy", "average")]⟩,
    ⟨"averageSeries(group)", [some 2, none], 0, 2, 1, 1,
      [("dc", "x"), ("aggregatedBy", "average")]⟩,
    by with_unfolding_all rfl, by with_unfolding_all rfl, by with_unfolding_all rfl,
    by decide, by decide, rfl, rfl, by decide⟩

/-! ## The statistic name of an alias (C6) -/

theorem foldl_append_pair (L : List String) (f : Ptr) (acc : List FunctionMetadata) :
    L.foldl (fun res n => res ++ [(⟨n, f⟩ : FunctionMetadata), ⟨n ++ "Series", f⟩]) acc =
      acc ++ L.flatMap (fun n => [(⟨n, f⟩ : FunctionMetadata), ⟨n ++ "Series", f⟩]) := by
  induction L generalizing acc with
  | nil => simp
  | cons n rest ih => simp [ih]

theorem mem_New (L : List String) (f : Ptr) (configFile : String) (m : FunctionMetadata)
    (hm : m ∈ New L f configFile) :
    m.Name = "aggregate" ∨ ∃ n ∈ L, m.Name = n ∨ m.Name = n ++ "Series" := by
  simp only [New, List.foldl_cons, List.foldl_nil, List.nil_append] at hm
  rw [foldl_append_pair] at hm
  rcases List.mem_append.mp hm with h | h
  · left
    rw [List.mem_singleton.mp h]
  · right
    obtain ⟨n, hn, hmem⟩ := List.mem_flatMap.mp h
    simp only [List.mem_cons, List.mem_singleton, List.not_mem_nil, or_false] at hmem
    rcases hmem with rfl | rfl
    · exact ⟨n, hn, Or.inl rfl⟩
    · exact ⟨n, hn, Or.inr rfl⟩

theorem strings.TrimSuffix_of_not_contains (n : String) (h : ¬ ContainsSeries n) :
    strings.TrimSuffix n "Series" = n := by
  unfold strings.TrimSuffix
  cases hs : "Series".data.isSuffixOf n.data with
  | false => simp
  | true => exact absurd (List.isSuffixOf_iff_suffix.mp hs).isInfix h

theorem strings.TrimSuffix_append_Series (n : String) :
    strings.TrimSuffix (n ++ "Series") "Series" = n := by
  unfold strings.TrimSuffix
  have hs : "Series".data.isSuffixOf (n ++ "Series").data = true := by
    rw [List.isSuffixOf_iff_suffix]
    exact ⟨n.data, by simp⟩
  simp [hs]

/-- On every name the registry hands to `Do` in the alias form, removing the
first `Series` (line 57) and removing a trailing `Series` give the same
name. -/
theorem Replace_eq_TrimSuffix_of_registered (L : List String) (f : Ptr) (configFile : String)
    (m : FunctionMetadata) (hL : ∀ n ∈ L, ¬ ContainsSeries n) (hm : m ∈ New L f configFile)
    (hne : m.Name ≠ "aggregate") :
    strings.Replace m.Name "Series" "" 1 = strings.TrimSuffix m.Name "Series" := by
  rcases mem_New L f configFile m hm with h | ⟨n, hn, h | h⟩
  · exact absurd h hne
  · rw [h, strings.Replace_no_Series n (hL n hn), strings.TrimSuffix_of_not_contains n (hL n hn)]
  · rw [h, strings.Replace_trailing_Series n (hL n hn), strings.TrimSuffix_append_Series]

/-- C6: in the alias form, entered under any name `New` registers (the
summarizer names being free of `Series`), the statistic name `Do` looks up is
the invoked name with a trailing `Series` removed when it ends in `Series` and
the invoked name unchanged otherwise: the name computed at line 57 equals it, an
unknown such name is the one the error names, and a known one selects the
reducer handed to the engine, is the stem of the rewritten target and is the
tag set on the outputs. -/
theorem Do_alias_statistic_name (env : Env) (e : Expr) (args : List MetricData)
    (L : List String) (f : Ptr) (configFile : String) (m : FunctionMetadata)
    (hL : ∀ n ∈ L, ¬ ContainsSeries n) (hm : m ∈ New L f configFile)
    (ht : e.Target = m.Name) (h : AliasForm env e args) (hne : args ≠ []) :
    strings.Replace e.Target "Series" "" 1 = strings.TrimSuffix e.Target "Series" ∧
      (env.ConsolidationToFunc (strings.TrimSuffix e.Target "Series") = none →
        Do env e = some ⟨none, some ⟨"unsupported consolidation function " ++
          strings.TrimSuffix e.Target "Series"⟩, e⟩) ∧
      (∀ fn, env.ConsolidationToFunc (strings.TrimSuffix e.Target "Series") = some fn →
        Do env e = some (returnFromEngine (strings.TrimSuffix e.Target "Series")
          (e.SetTarget (strings.TrimSuffix e.Target "Series" ++ "Series"))
          (env.AggregateSeries (e.SetTarget (strings.TrimSuffix e.Target "Series" ++ "Series"))
            args fn (-1) env.ExtractTagsFromArgs))) := by
  have hname : strings.Replace e.Target "Series" "" 1 = strings.TrimSuffix e.Target "Series" := by
    rw [ht]
    exact Replace_eq_TrimSuffix_of_registered L f configFile m hL hm (ht ▸ h.2.1)
  refine ⟨hname, fun hkey => ?_, fun fn hkey => ?_⟩
  · apply Do_of_returned
    rw [prepare_alias env e args h hne, hname]
    exact lookupAndRewrite_unknown env e args _ false (-1) hkey
  · have hcall := prepare_alias_call env e args fn h hne (by rw [hname]; exact hkey)
    rw [hname] at hcall
    exact Do_eq_of_call env e _ hcall

/-- C6, witness: `sumSeries` is registered by `New` over `avg` and the statistic
names of the table; `sumSeries(a,b)` looks up `sum`. -/
theorem Do_alias_statistic_name_witness :
    strings.Replace sumSeriesOverAB.Target "Series" "" 1 =
        strings.TrimSuffix sumSeriesOverAB.Target "Series" ∧
      (sampleEnv.ConsolidationToFunc (strings.TrimSuffix sumSeriesOverAB.Target "Series") =
          none →
        Do sampleEnv sumSeriesOverAB = some ⟨none, some ⟨"unsupported consolidation function " ++
          strings.TrimSuffix sumSeriesOverAB.Target "Series"⟩, sumSeriesOverAB⟩) ∧
      (∀ fn, sampleEnv.ConsolidationToFunc
          (strings.TrimSuffix sumSeriesOverAB.Target "Series") = some fn →
        Do sampleEnv sumSeriesOverAB =
          some (returnFromEngine (strings.TrimSuffix sumSeriesOverAB.Target "Series")
            (sumSeriesOverAB.SetTarget
              (strings.TrimSuffix sumSeriesOverAB.Target "Series" ++ "Series"))
            (sampleEnv.AggregateSeries
              (sumSeriesOverAB.SetTarget
                (strings.TrimSuffix sumSeriesOverAB.Target "Series" ++ "Series"))
              [seriesA, seriesB] fn (-1) sampleEnv.ExtractTagsFromArgs))) :=
  Do_alias_statistic_name sampleEnv sumSeriesOverAB [seriesA, seriesB]
    ("avg" :: ConsolidationNames) 0 "" ⟨"sumSeries", 0⟩ (by decide) (by decide) rfl
    ⟨⟨_, rfl⟩, by decide, rfl⟩ (by simp)

/-- Outside the names `New` registers the two readings part: a node named
`Seriessum` does not end in `Series`, yet line 57 makes `sum` of it, and `Do`
aggregates with `sum`. -/
theorem Do_first_Series_removed_on_unregistered_name :
    AliasForm sampleEnv seriessumOverAB [seriesA, seriesB] ∧
      strings.TrimSuffix seriessumOverAB.Target "Series" = "Seriessum" ∧
      strings.Replace seriessumOverAB.Target "Series" "" 1 = "sum" ∧
      sampleEnv.ConsolidationToFunc "Seriessum" = none ∧
      (Do sampleEnv seriessumOverAB).map (fun r => (r.results, r.err)) =
        some (some [⟨"sumSeries(a,b)", [some 4, some 5], 0, 2, 1, 1,
          [("dc", "x"), ("aggregatedBy", "sum")]⟩], none) :=
  ⟨⟨⟨_, rfl⟩, by decide, rfl⟩, by decide, by decide, rfl, by with_unfolding_all rfl⟩

/-! ## The threshold handed to the engine (C7) -/

/-- C7: on a non-empty resolved input with a known statistic, what `Do` returns
is what lines 88 to 96 make of the engine's outcome on that input with the
threshold `x`, where `x` is -1 in the alias form whatever the series carry, and
in the canonical form the numeric constant at argument 2 when there is one and
the `XFilesFactor` of the first resolved series when there is no argument 2. -/
theorem Do_threshold (env : Env) (e : Expr) (args : List MetricData) (f : AggFunc)
    (x : Float64)
    (hform : (AliasForm env e args ∧ args ≠ [] ∧
        env.ConsolidationToFunc (strings.Replace e.Target "Series" "" 1) = some f ∧ x = -1) ∨
      (∃ callback first rest, CanonicalForm env e callback args ∧ args = first :: rest ∧
        env.ConsolidationToFunc callback = some f ∧
        ((e.Arg 2 = none ∧ x = first.XFilesFactor) ∨
          (∃ a, e.Arg 2 = some a ∧ a.etype = .EtConst ∧ x = a.val)))) :
    ∃ c, prepare env e = .call c ∧ c.args = args ∧ c.aggFunc = f ∧ c.xFilesFactor = x ∧
      Do env e = some (returnFromEngine c.callback c.e
        (env.AggregateSeries c.e args f x env.ExtractTagsFromArgs)) := by
  have key : ∀ c, prepare env e = .call c → c.args = args → c.aggFunc = f →
      c.xFilesFactor = x →
      ∃ c, prepare env e = .call c ∧ c.args = args ∧ c.aggFunc = f ∧ c.xFilesFactor = x ∧
        Do env e = some (returnFromEngine c.callback c.e
          (env.AggregateSeries c.e args f x env.ExtractTagsFromArgs)) := by
    intro c hc h1 h2 h3
    refine ⟨c, hc, h1, h2, h3, ?_⟩
    rw [Do_eq_of_call env e c hc, h1, h2, h3]
  rcases hform with ⟨ha, hne, hkey, rfl⟩ | ⟨callback, first, rest, hc, rfl, hkey, hx⟩
  · exact key _ (prepare_alias_call env e args f ha hne hkey) rfl rfl rfl
  · obtain ⟨a0, ha0⟩ := Expr.arg0_of_getStringArg1 e callback hc.1
    have hread : ThresholdReads e (first :: rest) x := by
      refine ⟨first, rest, rfl, ?_⟩
      rcases hx with ⟨h2, rfl⟩ | ⟨a, h2, hk, rfl⟩
      · simp only [Expr.Arg] at h2
        simp only [Expr.GetFloatArgDefault, h2]
      · simp only [Expr.Arg] at h2
        simp only [Expr.GetFloatArgDefault, h2, hk, if_true]
    exact key _ (prepare_canonical_call env e a0 callback _ x f hc hread hkey ha0) rfl rfl rfl

/-- C7, witness: `sumSeries(a,b)` calls the engine with -1 although `a` carries
1; `aggregate(*, "sum")` with the 1 carried by `a`; `aggregate(*, "sum", 0.5)`
with 1/2. -/
theorem Do_threshold_witness :
    (∃ c, prepare sampleEnv sumSeriesOverAB = .call c ∧ c.args = [seriesA, seriesB] ∧
        c.aggFunc = List.sum ∧ c.xFilesFactor = -1 ∧
        Do sampleEnv sumSeriesOverAB = some (returnFromEngine c.callback c.e
          (sampleEnv.AggregateSeries c.e [seriesA, seriesB] List.sum (-1)
            sampleEnv.ExtractTagsFromArgs))) ∧
      (∃ c, prepare sampleEnv aggregateSumOverStar = .call c ∧ c.args = [seriesA, seriesB] ∧
        c.aggFunc = List.sum ∧ c.xFilesFactor = 1 ∧
        Do sampleEnv aggregateSumOverStar = some (returnFromEngine c.callback c.e
          (sampleEnv.AggregateSeries c.e [seriesA, seriesB] List.sum 1
            sampleEnv.ExtractTagsFromArgs))) ∧
      (∃ c, prepare sampleEnv aggregateSumHalfOverStar = .call c ∧
        c.args = [seriesA, seriesB] ∧ c.aggFunc = List.sum ∧ c.xFilesFactor = 1 / 2 ∧
        Do sampleEnv aggregateSumHalfOverStar = some (returnFromEngine c.callback c.e
          (sampleEnv.AggregateSeries c.e [seriesA, seriesB] List.sum (1 / 2)
            sampleEnv.ExtractTagsFromArgs))) :=
  ⟨Do_threshold sampleEnv sumSeriesOverAB [seriesA, seriesB] List.sum (-1)
      (Or.inl ⟨⟨⟨_, rfl⟩, by decide, rfl⟩, by simp, rfl, rfl⟩),
    Do_threshold sampleEnv aggregateSumOverStar [seriesA, seriesB] List.sum 1
      (Or.inr ⟨"sum", seriesA, [seriesB], ⟨rfl, _, rfl, rfl⟩, rfl, rfl, Or.inl ⟨rfl, rfl⟩⟩),
    Do_threshold sampleEnv aggregateSumHalfOverStar [seriesA, seriesB] List.sum (1 / 2)
      (Or.inr ⟨"sum", seriesA, [seriesB], ⟨rfl, _, rfl, rfl⟩, rfl, rfl,
        Or.inr ⟨constNode (1 / 2), rfl, rfl, rfl⟩⟩)⟩

/-- The threshold shows in the values: with `a` missing its second sample and
carrying the threshold 1, the alias form sums `[4, 5]` and the canonical form
over the same two series `[4, missing]`. -/
theorem Do_threshold_values :
    (Do sampleEnv sumSeriesOverAB).map (fun r => r.results.map (List.map (fun o => o.Values))) =
        some (some [[some 4, some 5]]) ∧
      (Do sampleEnv aggregateSumOverStar).map
          (fun r => r.results.map (List.map (fun o => o.Values))) =
        some (some [[some 4, none]]) :=
  ⟨by with_unfolding_all rfl, by with_unfolding_all rfl⟩

/-! ## The node handed to the engine (C8) -/

theorem consolidationNames_free_of_Series :
    ∀ s ∈ ConsolidationNames, ¬ ContainsSeries s ∧ s ≠ "aggregate" := by
  decide

theorem prepare_node (env : Env) (e : Expr) (args : List MetricData) (s raw : String)
    (f : AggFunc) (hs : ¬ ContainsSeries s) (hkey : env.ConsolidationToFunc s = some f)
    (hne : args ≠ [])
    (hform : ((e.Target = s ∨ e.Target = s ++ "Series") ∧ AliasForm env e args ∧
        raw = e.RawArgs) ∨
      (CanonicalForm env e s args ∧ (∃ x, ThresholdReads e args x) ∧
        ∃ a0, e.Arg 0 = some a0 ∧ raw = a0.Target)) :
    ∃ c, prepare env e = .call c ∧ c.args = args ∧ c.aggFunc = f ∧ c.callback = s ∧
      c.e.Target = s ++ "Series" ∧ c.e.RawArgs = raw := by
  rcases hform with ⟨ht, ha, rfl⟩ | ⟨hc, ⟨x, hx⟩, a0, ha0, rfl⟩
  · have hn : strings.Replace e.Target "Series" "" 1 = s := by
      rcases ht with ht | ht
      · rw [ht]
        exact strings.Replace_no_Series s hs
      · rw [ht]
        exact strings.Replace_trailing_Series s hs
    have hcall := prepare_alias_call env e args f ha hne (by rw [hn]; exact hkey)
    rw [hn] at hcall
    exact ⟨_, hcall, rfl, rfl, rfl, Expr.target_setTarget e _, Expr.rawArgs_setTarget e _⟩
  · refine ⟨_, prepare_canonical_call env e a0 s args x f hc hx hkey ha0, rfl, rfl, rfl, ?_, ?_⟩
    · rw [Expr.target_setRawArgs, Expr.target_setTarget]
    · exact Expr.rawArgs_setRawArgs _ _

/-- What the code does, for every table key `s` free of `Series` and every
non-empty resolved input: the node on which `Do` calls the engine has the
target `s ++ "Series"` whether `Do` was entered as `s(...)`, as `sSeries(...)`
or in the canonical form with the statistic `s`; its raw arguments are the
node's own in the alias form and, in the canonical form, the `Target()` of
argument 0 (line 84). -/
theorem Do_engine_node (env : Env) (e : Expr) (args : List MetricData) (s raw : String)
    (f : AggFunc) (hs : ¬ ContainsSeries s) (hkey : env.ConsolidationToFunc s = some f)
    (hne : args ≠ [])
    (hform : ((e.Target = s ∨ e.Target = s ++ "Series") ∧ AliasForm env e args ∧
        raw = e.RawArgs) ∨
      (CanonicalForm env e s args ∧ (∃ x, ThresholdReads e args x) ∧
        ∃ a0, e.Arg 0 = some a0 ∧ raw = a0.Target)) :
    ∃ node x, node.Target = s ++ "Series" ∧ node.RawArgs = raw ∧
      Do env e = some (returnFromEngine s node
        (env.AggregateSeries node args f x env.ExtractTagsFromArgs)) := by
  obtain ⟨c, hcall, h1, h2, h3, h4, h5⟩ := prepare_node env e args s raw f hs hkey hne hform
  refine ⟨c.e, c.xFilesFactor, h4, h5, ?_⟩
  rw [Do_eq_of_call env e c hcall, h1, h2, h3]

/-- C8, the code at the failing input: argument 0 of
`aggregate(group(a,b), "sum")` is the call `group(a,b)`, with target `group`
and raw arguments `a,b`; `Do` leaves the node as `sumSeries` with the raw
arguments `group`, and the series comes out named `sumSeries(group)`; entered
as `sumSeries(group(a,b))` the node keeps the raw arguments `group(a,b)` and the
series is named `sumSeries(group(a,b))`. -/
theorem Do_canonical_rawArgs_of_call_argument :
    (aggregateSumOverGroup.Arg 0).map (fun a => (a.Target, a.RawArgs)) =
        some ("group", "a,b") ∧
      (Do sampleEnv aggregateSumOverGroup).map
          (fun r => (r.node.Target, r.node.RawArgs,
            r.results.map (List.map (fun o => o.Name)))) =
        some ("sumSeries", "group", some ["sumSeries(group)"]) ∧
      (Do sampleEnv sumSeriesOverGroup).map
          (fun r => (r.node.Target, r.node.RawArgs,
            r.results.map (List.map (fun o => o.Name)))) =
        some ("sumSeries", "group(a,b)", some ["sumSeries(group(a,b))"]) :=
  ⟨by decide, by decide, by decide⟩

/-! ## Registration (C9) -/

theorem length_flatMap_pair (L : List String) (f : Ptr) :
    (L.flatMap (fun n => [(⟨n, f⟩ : FunctionMetadata), ⟨n ++ "Series", f⟩])).length =
      2 * L.length := by
  induction L with
  | nil => rfl
  | cons n rest ih =>
    simp only [List.flatMap_cons, List.length_append, List.length_cons, List.length_nil, ih]
    omega

/-- C9: for every configuration path and every summarizer list `L`, `New`
returns `aggregate` followed, for each `n` of `L` in order, by `n` and
`n ++ "Series"`: `1 + 2 * |L|` registrations, each carrying the one
implementation object allocated at its first line, and the same for every
configuration path. -/
theorem New_registrations (L : List String) (f : Ptr) (configFile : String) :
    New L f configFile =
        ⟨"aggregate", f⟩ :: L.flatMap (fun n => [⟨n, f⟩, ⟨n ++ "Series", f⟩]) ∧
      (New L f configFile).length = 1 + 2 * L.length ∧
      (∀ m ∈ New L f configFile, m.F = f) ∧
      ∀ configFile', New L f configFile' = New L f configFile := by
  have h : ∀ cfg, New L f cfg =
      ⟨"aggregate", f⟩ :: L.flatMap (fun n => [⟨n, f⟩, ⟨n ++ "Series", f⟩]) := by
    intro cfg
    simp only [New, List.foldl_cons, List.foldl_nil, List.nil_append]
    rw [foldl_append_pair]
    rfl
  refine ⟨h configFile, ?_, ?_, fun cfg => by rw [h cfg, h configFile]⟩
  · rw [h configFile, List.length_cons, length_flatMap_pair]
    omega
  · intro m hm
    rw [h configFile] at hm
    rcases List.mem_cons.mp hm with rfl | hm
    · rfl
    · obtain ⟨n, -, hn⟩ := List.mem_flatMap.mp hm
      simp only [List.mem_cons, List.mem_singleton, List.not_mem_nil, or_false] at hn
      rcases hn with rfl | rfl <;> rfl

/-! ## Self-description (C10) -/

/-- C10, the code at the failing keys: the descriptors stored under `max` and
`min` are named `maxSeries` and `minSeries` (and advertise the signatures
`maxSeries(*seriesLists)` and `minSeries(*seriesLists)`), while every other key
of the map holds a descriptor named after the key. -/
theorem Description_max_min_misnamed (options : List String) :
    (descriptionGet (Description options) "max").map (fun d => (d.Name, d.Function)) =
        some ("maxSeries", "maxSeries(*seriesLists)") ∧
      (descriptionGet (Description options) "min").map (fun d => (d.Name, d.Function)) =
        some ("minSeries", "minSeries(*seriesLists)") ∧
      ∀ kv ∈ Description options, kv.1 ≠ "max" → kv.1 ≠ "min" → kv.2.Name = kv.1 := by
  refine ⟨?_, ?_, ?_⟩
  · simp [descriptionGet, Description, List.find?]
  · simp [descriptionGet, Description, List.find?]
  · intro kv hkv
    simp only [Description, List.mem_cons, List.mem_singleton, List.not_mem_nil, or_false] at hkv
    rcases hkv with h | h | h | h | h | h | h | h | h | h | h | h | h | h | h | h | h <;>
      subst h <;> simp

/-! ## The canonical path under any name (C12) -/

theorem Expr.args_setTarget (e : Expr) (t : String) : (e.SetTarget t).args = e.args := by
  obtain ⟨_, _, _, _, _, _⟩ := e
  rfl

theorem Expr.getStringArg_setTarget (e : Expr) (t : String) (n : Nat) :
    (e.SetTarget t).GetStringArg n = e.GetStringArg n := by
  simp only [Expr.GetStringArg, Expr.args_setTarget]

theorem Expr.getFloatArgDefault_setTarget (e : Expr) (t : String) (n : Nat) (d : Float64) :
    (e.SetTarget t).GetFloatArgDefault n d = e.GetFloatArgDefault n d := by
  simp only [Expr.GetFloatArgDefault, Expr.args_setTarget]

theorem Expr.setTarget_setTarget (e : Expr) (t t' : String) :
    (e.SetTarget t).SetTarget t' = e.SetTarget t' := by
  obtain ⟨_, _, _, _, _, _⟩ := e
  rfl

theorem canonicalForm_setTarget (env : Env) (e : Expr) (t callback : String)
    (args : List MetricData) (h : CanonicalForm env e callback args) :
    CanonicalForm env (e.SetTarget t) callback args := by
  obtain ⟨hs, a0, ha, hr⟩ := h
  exact ⟨by rw [Expr.getStringArg_setTarget, hs], a0, by rw [Expr.arg_setTarget, ha], hr⟩

theorem thresholdReads_setTarget (e : Expr) (t : String) (args : List MetricData) (x : Float64)
    (h : ThresholdReads e args x) : ThresholdReads (e.SetTarget t) args x := by
  obtain ⟨first, rest, hargs, hf⟩ := h
  exact ⟨first, rest, hargs, by rw [Expr.getFloatArgDefault_setTarget, hf]⟩

/-- The canonical path on two nodes that differ in the target only: either
both stop early with the same results and error, each node left as it was, or
both reach the engine with one and the same call. -/
theorem prepare_canonical_setTarget (env : Env) (e : Expr) (t callback : String)
    (hs : e.GetStringArg 1 = .ok callback) :
    (∃ results err, prepare env e = .returned ⟨results, err, e⟩ ∧
        prepare env (e.SetTarget t) = .returned ⟨results, err, e.SetTarget t⟩ ∧
        (results = none ∨ results = some [])) ∨
      (∃ c, prepare env e = .call c ∧ prepare env (e.SetTarget t) = .call c ∧
        c.callback = callback ∧ c.e.Target = callback ++ "Series") := by
  obtain ⟨a0, ha0⟩ := Expr.arg0_of_getStringArg1 e callback hs
  have hs' : (e.SetTarget t).GetStringArg 1 = .ok callback := by
    rw [Expr.getStringArg_setTarget, hs]
  have ha0' : (e.SetTarget t).Arg 0 = some a0 := by rw [Expr.arg_setTarget, ha0]
  cases hr : env.GetSeriesArg a0 with
  | error err =>
    exact Or.inl ⟨none, some err, by simp [prepare, hs, ha0, hr],
      by simp [prepare, hs', ha0', hr], Or.inl rfl⟩
  | ok args =>
    cases args with
    | nil =>
      exact Or.inl ⟨some [], none, by simp [prepare, hs, ha0, hr],
        by simp [prepare, hs', ha0', hr], Or.inr rfl⟩
    | cons first rest =>
      have hc : CanonicalForm env e callback (first :: rest) := ⟨hs, a0, ha0, hr⟩
      have hc' := canonicalForm_setTarget env e t callback _ hc
      cases hf : e.GetFloatArgDefault 2 first.XFilesFactor with
      | error err =>
        have hf' : (e.SetTarget t).GetFloatArgDefault 2 first.XFilesFactor = .error err := by
          rw [Expr.getFloatArgDefault_setTarget, hf]
        exact Or.inl ⟨none, some err, by simp [prepare, hs, ha0, hr, hf],
          by simp [prepare, hs', ha0', hr, hf'], Or.inl rfl⟩
      | ok x =>
        have hx : ThresholdReads e (first :: rest) x := ⟨first, rest, rfl, hf⟩
        have hx' := thresholdReads_setTarget e t _ x hx
        cases hk : env.ConsolidationToFunc callback with
        | none =>
          refine Or.inl ⟨none, some ⟨"unsupported consolidation function " ++ callback⟩,
            ?_, ?_, Or.inl rfl⟩
          · rw [prepare_canonical env e callback _ x hc hx]
            exact lookupAndRewrite_unknown env e _ callback true x hk
          · rw [prepare_canonical env _ callback _ x hc' hx']
            exact lookupAndRewrite_unknown env _ _ callback true x hk
        | some f =>
          refine Or.inr ⟨_, prepare_canonical_call env e a0 callback _ x f hc hx hk ha0, ?_,
            rfl, ?_⟩
          · rw [prepare_canonical_call env _ a0 callback _ x f hc' hx' hk ha0',
              Expr.setTarget_setTarget]
          · rw [Expr.target_setRawArgs, Expr.target_setTarget]

/-- C12: when argument 1 reads as a string, it does so under every target
name, and the two invocations `e` and `e` renamed to `t` return the same
results and the same error; either neither node is rewritten (an error or the
empty result) or both are rewritten to the same node, whose target is the
statistic name followed by `Series`; and every series returned carries
`aggregatedBy` = the statistic name. -/
theorem Do_canonical_under_any_target (env : Env) (e : Expr) (t callback : String)
    (hs : e.GetStringArg 1 = .ok callback) :
    (e.SetTarget t).GetStringArg 1 = .ok callback ∧
      ∃ r₁ r₂, Do env e = some r₁ ∧ Do env (e.SetTarget t) = some r₂ ∧
        r₁.results = r₂.results ∧ r₁.err = r₂.err ∧
        ((r₁.node = e ∧ r₂.node = e.SetTarget t) ∨
          (r₁.node = r₂.node ∧ r₁.node.Target = callback ++ "Series")) ∧
        ∀ rs o, r₁.results = some rs → o ∈ rs →
          mapGet o.Tags "aggregatedBy" = some callback := by
  refine ⟨by rw [Expr.getStringArg_setTarget, hs], ?_⟩
  rcases prepare_canonical_setTarget env e t callback hs with
    ⟨results, err, h₁, h₂, hres⟩ | ⟨c, h₁, h₂, hcb, htarget⟩
  · refine ⟨_, _, Do_of_returned env e _ h₁, Do_of_returned env _ _ h₂, rfl, rfl,
      Or.inl ⟨rfl, rfl⟩, ?_⟩
    intro rs o hrs ho
    rcases hres with rfl | rfl
    · simp at hrs
    · simp only [Option.some.injEq] at hrs
      subst hrs
      simp at ho
  · obtain ⟨r₁, hr₁⟩ := Do_returns env e
    have hr₂ : Do env (e.SetTarget t) = some r₁ := by
      rw [← hr₁]
      simp only [Do, h₁, h₂]
    have hnode : r₁.node = c.e := by
      simp only [Do, h₁] at hr₁
      cases hr : env.AggregateSeries c.e c.args c.aggFunc c.xFilesFactor
          env.ExtractTagsFromArgs with
      | error err =>
        simp only [hr, Option.some.injEq] at hr₁
        rw [← hr₁]
      | ok results =>
        simp only [hr, Option.some.injEq] at hr₁
        rw [← hr₁]
    refine ⟨r₁, r₁, hr₁, hr₂, rfl, rfl, Or.inr ⟨rfl, by rw [hnode, htarget]⟩, ?_⟩
    intro rs o hrs ho
    rw [← hcb]
    exact Do_tag_of_call env e c r₁ rs o h₁ hr₁ hrs ho

/-- C12, witness: `aggregate(*, "max")` and the same node renamed `sumSeries`,
and `sumSeries(nothing, "max")` renamed `aggregate`. -/
theorem Do_canonical_under_any_target_witness :
    ((aggregateMaxOverStar.SetTarget "sumSeries").GetStringArg 1 = .ok "max" ∧
      ∃ r₁ r₂, Do sampleEnv aggregateMaxOverStar = some r₁ ∧
        Do sampleEnv (aggregateMaxOverStar.SetTarget "sumSeries") = some r₂ ∧
        r₁.results = r₂.results ∧ r₁.err = r₂.err ∧
        ((r₁.node = aggregateMaxOverStar ∧
            r₂.node = aggregateMaxOverStar.SetTarget "sumSeries") ∨
          (r₁.node = r₂.node ∧ r₁.node.Target = "max" ++ "Series")) ∧
        ∀ rs o, r₁.results = some rs → o ∈ rs →
          mapGet o.Tags "aggregatedBy" = some "max") ∧
      ((sumSeriesMaxOverNothing.SetTarget "aggregate").GetStringArg 1 = .ok "max" ∧
      ∃ r₁ r₂, Do sampleEnv sumSeriesMaxOverNothing = some r₁ ∧
        Do sampleEnv (sumSeriesMaxOverNothing.SetTarget "aggregate") = some r₂ ∧
        r₁.results = r₂.results ∧ r₁.err = r₂.err ∧
        ((r₁.node = sumSeriesMaxOverNothing ∧
            r₂.node = sumSeriesMaxOverNothing.SetTarget "aggregate") ∨
          (r₁.node = r₂.node ∧ r₁.node.Target = "max" ++ "Series")) ∧
        ∀ rs o, r₁.results = some rs → o ∈ rs →
          mapGet o.Tags "aggregatedBy" = some "max") :=
  ⟨Do_canonical_under_any_target sampleEnv aggregateMaxOverStar "sumSeries" "max" rfl,
    Do_canonical_under_any_target sampleEnv sumSeriesMaxOverNothing "aggregate" "max" rfl⟩

/-! ## The node is rewritten only after the lookup (C13) -/

theorem prepare_of_earlyExit (env : Env) (e : Expr) (results : Slice MetricData)
    (err : Option Error) (h : EarlyExit env e results err) :
    prepare env e = .returned ⟨results, err, e⟩ := by
  cases h with
  | usage x ht hs => exact prepare_usage env e x ht hs
  | aliasResolution x y hs ht hr => simp [prepare, hs, ht, hr]
  | canonicalResolution x callback a0 hs ha hr => simp [prepare, hs, ha, hr]
  | thresholdParse x callback first rest hc hf =>
    obtain ⟨hs, a0, ha, hr⟩ := hc
    simp [prepare, hs, ha, hr, hf]
  | aliasUnsupported args ha hne hkey =>
    rw [prepare_alias env e args ha hne]
    exact lookupAndRewrite_unknown env e args _ false (-1) hkey
  | canonicalUnsupported args callback x hc hx hkey =>
    rw [prepare_canonical env e callback args x hc hx]
    exact lookupAndRewrite_unknown env e args callback true x hkey
  | aliasEmpty ha => exact prepare_alias_empty env e ha
  | canonicalEmpty callback hc => exact prepare_canonical_empty env e callback hc

theorem lookupAndRewrite_returned (env : Env) (e : Expr) (args : List MetricData)
    (callback : String) (b : Bool) (x : Float64) (r : DoResult)
    (h : lookupAndRewrite env e args callback b x = .returned r) :
    env.ConsolidationToFunc callback = none ∧
      r = ⟨none, some ⟨"unsupported consolidation function " ++ callback⟩, e⟩ := by
  unfold lookupAndRewrite at h
  cases hk : env.ConsolidationToFunc callback with
  | none =>
    simp only [hk, Prepared.returned.injEq] at h
    exact ⟨rfl, h.symm⟩
  | some f =>
    simp only [hk] at h
    cases b with
    | false => simp at h
    | true =>
      simp only [if_true] at h
      cases ha : (e.SetTarget (callback ++ "Series")).Arg 0 with
      | none => simp [ha] at h
      | some a0 => simp [ha] at h

theorem earlyExit_of_prepare (env : Env) (e : Expr) (r : DoResult)
    (h : prepare env e = .returned r) : r.node = e ∧ EarlyExit env e r.results r.err := by
  cases hs : e.GetStringArg 1 with
  | error y =>
    by_cases ht : e.Target = "aggregate"
    · rw [prepare_usage env e y ht hs, Prepared.returned.injEq] at h
      subst h
      exact ⟨rfl, EarlyExit.usage y ht hs⟩
    · cases hr : env.GetSeriesArgsAndRemoveNonExisting e with
      | error x =>
        simp only [prepare, hs, ht, if_false, hr, Prepared.returned.injEq] at h
        subst h
        exact ⟨rfl, EarlyExit.aliasResolution x y hs ht hr⟩
      | ok args =>
        have ha : AliasForm env e args := ⟨⟨y, hs⟩, ht, hr⟩
        by_cases hne : args = []
        · subst hne
          rw [prepare_alias_empty env e ha, Prepared.returned.injEq] at h
          subst h
          exact ⟨rfl, EarlyExit.aliasEmpty ha⟩
        · rw [prepare_alias env e args ha hne] at h
          obtain ⟨hkey, rfl⟩ := lookupAndRewrite_returned env e args _ false (-1) r h
          exact ⟨rfl, EarlyExit.aliasUnsupported args ha hne hkey⟩
  | ok callback =>
    obtain ⟨a0, ha0⟩ := Expr.arg0_of_getStringArg1 e callback hs
    cases hr : env.GetSeriesArg a0 with
    | error x =>
      simp only [prepare, hs, ha0, hr, Prepared.returned.injEq] at h
      subst h
      exact ⟨rfl, EarlyExit.canonicalResolution x callback a0 hs ha0 hr⟩
    | ok args =>
      have hc : CanonicalForm env e callback args := ⟨hs, a0, ha0, hr⟩
      cases args with
      | nil =>
        rw [prepare_canonical_empty env e callback hc, Prepared.returned.injEq] at h
        subst h
        exact ⟨rfl, EarlyExit.canonicalEmpty callback hc⟩
      | cons first rest =>
        cases hf : e.GetFloatArgDefault 2 first.XFilesFactor with
        | error x =>
          simp only [prepare, hs, ha0, hr, hf, Prepared.returned.injEq] at h
          subst h
          exact ⟨rfl, EarlyExit.thresholdParse x callback first rest hc hf⟩
        | ok x =>
          have hx : ThresholdReads e (first :: rest) x := ⟨first, rest, rfl, hf⟩
          rw [prepare_canonical env e callback _ x hc hx] at h
          obtain ⟨hkey, rfl⟩ := lookupAndRewrite_returned env e _ callback true x r h
          exact ⟨rfl, EarlyExit.canonicalUnsupported _ callback x hc hx hkey⟩

/-- C13: whatever `Do` returns, either it is one of the early exits (the usage
error, a series-resolution error, a threshold-parse error, the
unsupported-consolidation error, the empty result for empty input) and the
node is the one before the call, or the table lookup has succeeded and the node
is the rewritten one handed to the engine. And whenever the conditions of an
early exit hold, `Do` returns that exit's results and error with the node, its
target and its raw arguments as before the call. -/
theorem Do_rewrites_only_after_lookup (env : Env) (e : Expr) (r : DoResult)
    (hDo : Do env e = some r) :
    ((r.node = e ∧ EarlyExit env e r.results r.err) ∨
        (∃ c, prepare env e = .call c ∧
          env.ConsolidationToFunc c.callback = some c.aggFunc ∧ r.node = c.e)) ∧
      ∀ results err, EarlyExit env e results err →
        r.results = results ∧ r.err = err ∧ r.node = e ∧ r.node.Target = e.Target ∧
          r.node.RawArgs = e.RawArgs := by
  constructor
  · cases hp : prepare env e with
    | panicked => exact absurd hp (prepare_not_panicked env e)
    | returned r' =>
      have hr : r = r' := by
        simp only [Do, hp, Option.some.injEq] at hDo
        exact hDo.symm
      subst hr
      exact Or.inl (earlyExit_of_prepare env e r hp)
    | call c =>
      refine Or.inr ⟨c, rfl, ?_, ?_⟩
      · unfold prepare at hp
        have hlook : ∀ args callback b x, lookupAndRewrite env e args callback b x = .call c →
            env.ConsolidationToFunc c.callback = some c.aggFunc := by
          intro args callback b x hl
          obtain ⟨-, h2, -, h4⟩ := lookupAndRewrite_call env e args callback b x c hl
          rw [h2]
          exact h4
        cases hs : e.GetStringArg 1 with
        | error y =>
          simp only [hs] at hp
          split at hp
          · simp at hp
          · cases hr : env.GetSeriesArgsAndRemoveNonExisting e with
            | error x => simp [hr] at hp
            | ok args =>
              simp only [hr] at hp
              split at hp
              · simp at hp
              · exact hlook _ _ _ _ hp
        | ok callback =>
          obtain ⟨a0, ha0⟩ := Expr.arg0_of_getStringArg1 e callback hs
          simp only [hs, ha0] at hp
          cases hr : env.GetSeriesArg a0 with
          | error x => simp [hr] at hp
          | ok args =>
            cases args with
            | nil => simp [hr] at hp
            | cons first rest =>
              simp only [hr] at hp
              cases hf : e.GetFloatArgDefault 2 first.XFilesFactor with
              | error x => simp [hf] at hp
              | ok x =>
                simp only [hf] at hp
                exact hlook _ _ _ _ hp
      · simp only [Do, hp] at hDo
        cases hr : env.AggregateSeries c.e c.args c.aggFunc c.xFilesFactor
            env.ExtractTagsFromArgs with
        | error err =>
          simp only [hr, Option.some.injEq] at hDo
          rw [← hDo]
        | ok results =>
          simp only [hr, Option.some.injEq] at hDo
          rw [← hDo]
  · intro results err hexit
    have h := Do_of_returned env e _ (prepare_of_earlyExit env e results err hexit)
    rw [hDo, Option.some.injEq] at h
    subst h
    exact ⟨rfl, rfl, rfl, rfl, rfl⟩

/-- C13, witness: `aggregate(a, "bogus")` returns the unsupported-consolidation
error, `sumSeries(a,b)` with the fetch layer down returns the resolution error,
and `sumSeries(a,b)` over the sample environment succeeds; in each case the
node is as the statement says. -/
theorem Do_rewrites_only_after_lookup_witness :
    ((bogusOverA = bogusOverA ∧
          EarlyExit sampleEnv bogusOverA none
            (some ⟨"unsupported consolidation function bogus"⟩)) ∨
        (∃ c, prepare sampleEnv bogusOverA = .call c ∧
          sampleEnv.ConsolidationToFunc c.callback = some c.aggFunc ∧ bogusOverA = c.e)) ∧
      ((sumSeriesOverAB = sumSeriesOverAB ∧
          EarlyExit failingEnv sumSeriesOverAB none (some ⟨"fetch failed"⟩)) ∨
        (∃ c, prepare failingEnv sumSeriesOverAB = .call c ∧
          failingEnv.ConsolidationToFunc c.callback = some c.aggFunc ∧
          sumSeriesOverAB = c.e)) ∧
      ((sumSeriesOverAB.SetTarget "sumSeries" = sumSeriesOverAB ∧
          EarlyExit sampleEnv sumSeriesOverAB
            (some [⟨"sumSeries(a,b)", [some 4, some 5], 0, 2, 1, 1,
              [("dc", "x"), ("aggregatedBy", "sum")]⟩]) none) ∨
        (∃ c, prepare sampleEnv sumSeriesOverAB = .call c ∧
          sampleEnv.ConsolidationToFunc c.callback = some c.aggFunc ∧
          sumSeriesOverAB.SetTarget "sumSeries" = c.e)) :=
  ⟨(Do_rewrites_only_after_lookup sampleEnv bogusOverA
      ⟨none, some ⟨"unsupported consolidation function bogus"⟩, bogusOverA⟩ rfl).1,
    (Do_rewrites_only_after_lookup failingEnv sumSeriesOverAB
      ⟨none, some ⟨"fetch failed"⟩, sumSeriesOverAB⟩ rfl).1,
    (Do_rewrites_only_after_lookup sampleEnv sumSeriesOverAB
      ⟨some [⟨"sumSeries(a,b)", [some 4, some 5], 0, 2, 1, 1,
        [("dc", "x"), ("aggregatedBy", "sum")]⟩], none,
        sumSeriesOverAB.SetTarget "sumSeries"⟩ (by with_unfolding_all rfl)).1⟩

end Carbonapi
